import Mathlib

/-
Shallow embedding of the window-manager core of the Wiqnnc_OS repository
(src/index.js).  The registry state (the global state object: windows Map,
activeWindowId, nextZIndex, isDockVisible) and the operations createWindow,
focusWindow, closeWindow, minimizeWindow, restoreWindow, toggleMaximizeWindow,
applySnap, openApp, toggleDockVisibility, and the drag/resize pointer handlers
of makeDraggable/makeResizable are translated into pure Lean functions.

Modelling conventions, stated once:
- element.style.top/left/width/height are modelled as integers (pixel values);
  the DOM element itself, CSS classes and animations are dropped, with the
  maximized/minimized/closing classes mirrored by the boolean flags that the
  source keeps in the window record (isMaximized, isMinimized, isOpen).
- Date.now() and the Math.random()-derived placement expressions are inputs of
  the model (a timestamp argument and placement coordinate arguments).
- state.windows is a JS Map (unique keys, insertion order); it is modelled as
  a list of records in insertion order, with Map.set replacing in place when
  the key exists and appending otherwise.
- setTimeout callbacks (the 200 ms close grace period) are modelled by a list
  of pending close ids; firing the timeout is a separate operation.
- DOM-only bookkeeping (renderDock, updateWindowMenu, menu bar text, the snap
  indicator element, transitions) has no registry effect and is dropped.
-/

namespace Wiqnnc

/-- Snap edge, the value stored in windowData.isSnapping (source: strings
left / right / top set by showSnapIndicator). -/
inductive SnapEdge where
  | left
  | right
  | top
deriving Repr, DecidableEq

/-- Pixel geometry of a window element, the four style fields the source reads
and writes (style.top, style.left, style.width, style.height). -/
structure Geom where
  top : Int
  left : Int
  width : Int
  height : Int
deriving Repr, DecidableEq

/-- One window record, as built in createWindow (src/index.js lines 262-271)
plus the fields other operations attach to it lazily (isMaximized,
isSnapping, originalPosition are undefined until first written; undefined
booleans are modelled as false, undefined objects as none). -/
structure WRec where
  id : String
  baseAppId : String
  isMinimized : Bool
  isOpen : Bool
  zIndex : Nat
  isMaximized : Bool
  isSnapping : Option SnapEdge
  originalPosition : Option Geom
  style : Geom
deriving Repr, DecidableEq

/-- The fields of an APP_DEFINITIONS entry that the window manager reads:
id, isLaunchable, allowMultipleInstances, defaultWidth, defaultHeight
(width/height strings such as 700px parsed to integers). -/
structure AppDef where
  id : String
  isLaunchable : Bool
  allowMultipleInstances : Bool
  defaultWidth : Option Int
  defaultHeight : Option Int
deriving Repr, DecidableEq

/-- APP_DEFINITIONS (src/index.js lines 72-92), restricted to the modelled
fields.  Entries without allowMultipleInstances have it undefined, hence
false. -/
def APP_DEFINITIONS : List AppDef := [
  { id := "About", isLaunchable := true, allowMultipleInstances := false,
    defaultWidth := none, defaultHeight := none },
  { id := "AppLibraryLauncher", isLaunchable := false, allowMultipleInstances := false,
    defaultWidth := none, defaultHeight := none },
  { id := "Portfolio", isLaunchable := true, allowMultipleInstances := false,
    defaultWidth := some 700, defaultHeight := some 550 },
  { id := "WinsAssistant", isLaunchable := true, allowMultipleInstances := false,
    defaultWidth := some 420, defaultHeight := some 550 },
  { id := "Settings", isLaunchable := true, allowMultipleInstances := false,
    defaultWidth := some 500, defaultHeight := some 480 },
  { id := "Terminal", isLaunchable := true, allowMultipleInstances := false,
    defaultWidth := none, defaultHeight := none },
  { id := "Notepad", isLaunchable := true, allowMultipleInstances := true,
    defaultWidth := none, defaultHeight := none },
  { id := "StickyNotes", isLaunchable := true, allowMultipleInstances := true,
    defaultWidth := some 250, defaultHeight := some 250 },
  { id := "Calculator", isLaunchable := true, allowMultipleInstances := false,
    defaultWidth := some 320, defaultHeight := some 420 },
  { id := "MusicPlayer", isLaunchable := true, allowMultipleInstances := false,
    defaultWidth := some 300, defaultHeight := some 320 },
  { id := "SystemMonitor", isLaunchable := true, allowMultipleInstances := false,
    defaultWidth := none, defaultHeight := some 380 },
  { id := "WBrowse", isLaunchable := true, allowMultipleInstances := true,
    defaultWidth := some 800, defaultHeight := some 600 },
  { id := "Achievements", isLaunchable := true, allowMultipleInstances := false,
    defaultWidth := some 550, defaultHeight := none },
  { id := "Contact", isLaunchable := true, allowMultipleInstances := false,
    defaultWidth := none, defaultHeight := none },
  { id := "Help", isLaunchable := true, allowMultipleInstances := false,
    defaultWidth := none, defaultHeight := none },
  { id := "AboutWiqnnc", isLaunchable := true, allowMultipleInstances := false,
    defaultWidth := none, defaultHeight := none },
  { id := "MatrixRain", isLaunchable := true, allowMultipleInstances := true,
    defaultWidth := some 700, defaultHeight := some 500 },
  { id := "Credits", isLaunchable := true, allowMultipleInstances := true,
    defaultWidth := some 400, defaultHeight := some 450 },
  { id := "Trash", isLaunchable := false, allowMultipleInstances := false,
    defaultWidth := none, defaultHeight := none }
]

/-- The shell state.  windows, activeWindowId, nextZIndex, isDockVisible come
from the source state object; pendingClose models the scheduled close
timeouts; containerW/containerH are the desktop / windows-container client
dimensions (the viewport); menuBarH and dockOffsetH are the layout heights
read at runtime (menuBar.offsetHeight and dock.offsetHeight). -/
structure OSState where
  windows : List WRec
  activeWindowId : Option String
  nextZIndex : Nat
  isDockVisible : Bool
  pendingClose : List String
  containerW : Int
  containerH : Int
  menuBarH : Int
  dockOffsetH : Int
deriving Repr, DecidableEq

/-- Initial state (src/index.js lines 15-36): empty windows Map, no active
window, nextZIndex 100, dock visible.  The menu bar renders 28px tall and the
dock 60px (applySnap hardcodes 28 and 60+10). -/
def initState (cw ch : Int) : OSState :=
  { windows := [], activeWindowId := none, nextZIndex := 100,
    isDockVisible := true, pendingClose := [],
    containerW := cw, containerH := ch, menuBarH := 28, dockOffsetH := 60 }

/-- Map lookup by window id (state.windows.get / state.windows.has). -/
def findWin (s : OSState) (id : String) : Option WRec :=
  s.windows.find? (fun w => w.id == id)

/-- In-place mutation of the record stored under a key of the Map: every
record whose id matches is rewritten (for Map-representable lists the match
is unique). -/
def updateWin (l : List WRec) (id : String) (f : WRec → WRec) : List WRec :=
  l.map (fun w => if w.id = id then f w else w)

/-- Map.set: replace the record under the key if present, else append. -/
def mapSet (l : List WRec) (id : String) (w : WRec) : List WRec :=
  if l.any (fun v => v.id == id) then l.map (fun v => if v.id = id then w else v)
  else l ++ [w]

/-- The truthiness of the optional-chaining read appDef?.allowMultipleInstances
used by the createWindow dedup check: false when the app id has no
definition. -/
def allowsMultiple (appId : String) : Bool :=
  match APP_DEFINITIONS.find? (fun d => d.id == appId) with
  | none => false
  | some d => d.allowMultipleInstances

/-- focusWindow (src/index.js lines 293-316).  A missing or null id clears
activeWindowId; otherwise, unless the window is already active with the top
zIndex and not minimized, the window becomes active and receives the next
zIndex. -/
def focusWindow (s : OSState) (oid : Option String) : OSState :=
  match oid with
  | none => { s with activeWindowId := none }
  | some id =>
    match findWin s id with
    | none => { s with activeWindowId := none }
    | some w =>
      if s.activeWindowId = some id ∧ w.zIndex = s.nextZIndex - 1 ∧ w.isMinimized = false then
        s
      else
        { s with activeWindowId := some id,
                 windows := updateWin s.windows id (fun v => { v with zIndex := s.nextZIndex }),
                 nextZIndex := s.nextZIndex + 1 }

/-- closeWindow, immediate part (src/index.js lines 319-330): mark the record
not open (the closing CSS class starts the animation) and schedule the
removal timeout.  The appSpecificState teardown (clearing intervals and
animation frames) has no registry effect. -/
def closeWindow (s : OSState) (id : String) : OSState :=
  match findWin s id with
  | none => s
  | some _ =>
    { s with windows := updateWin s.windows id (fun w => { w with isOpen := false }),
             pendingClose := s.pendingClose ++ [id] }

/-- closeWindow, scheduled part (src/index.js lines 331-340, the setTimeout
body firing after the 200 ms grace period): delete the record from the Map
and clear focus if the closed window was active. -/
def closeWindowTimeout (s : OSState) (id : String) : OSState :=
  let s1 := { s with windows := s.windows.filter (fun w => ¬(w.id = id)),
                     pendingClose := s.pendingClose.erase id }
  if s.activeWindowId = some id then { s1 with activeWindowId := none } else s1

/-- Record-level body of minimizeWindow: snapshot the current style into
originalPosition, drop the maximized flag and class, set the minimized flag
(src/index.js lines 347-354). -/
def minimizeRec (w : WRec) : WRec :=
  { w with originalPosition := some w.style, isMaximized := false, isMinimized := true }

/-- minimizeWindow (src/index.js lines 344-361): only acts when the record
exists and is not yet minimized; clears focus if the minimized window was
active. -/
def minimizeWindow (s : OSState) (id : String) : OSState :=
  match findWin s id with
  | none => s
  | some w =>
    if w.isMinimized then s
    else
      let s1 := { s with windows := updateWin s.windows id minimizeRec }
      if s.activeWindowId = some id then { s1 with activeWindowId := none } else s1

/-- Record-level body of the minimized branch of restoreWindow: reapply the
originalPosition styles when present and drop the minimized flag
(src/index.js lines 366-373). -/
def restoreMinRec (w : WRec) : WRec :=
  { w with style := w.originalPosition.getD w.style, isMinimized := false }

/-- The minimized branch of restoreWindow (src/index.js lines 365-375):
reapply the saved geometry, unminimize, then focusWindow. -/
def applyRestoreMin (s : OSState) (id : String) : OSState :=
  focusWindow { s with windows := updateWin s.windows id restoreMinRec } (some id)

/-- Unfolding of restoreWindow at the call sites whose argument record is
known to satisfy isOpen = true (the dedup calls in openApp line 900 and
createWindow line 229): there the not-isOpen branch of restoreWindow is dead,
so only the minimized branch and the plain focus branch remain.  This avoids
the restoreWindow/openApp mutual recursion; the general restoreWindow is
defined below openApp. -/
def restoreOpen (s : OSState) (id : String) : OSState :=
  match findWin s id with
  | none => s
  | some w => if w.isMinimized then applyRestoreMin s id else focusWindow s (some id)

/-- Record-level body of toggleMaximizeWindow (src/index.js lines 386-402):
when maximized, reapply originalPosition (if present) and drop the flag;
otherwise snapshot the style and set the flag.  The full-workspace geometry
of a maximized window is produced by the maximized CSS class, not by style
writes, so the style fields are untouched on the way in. -/
def toggleMaxRec (w : WRec) : WRec :=
  if w.isMaximized then
    { w with style := w.originalPosition.getD w.style, isMaximized := false }
  else
    { w with originalPosition := some w.style, isMaximized := true }

/-- toggleMaximizeWindow (src/index.js lines 383-406).  Note the source has
no minimized check: any existing record is toggled. -/
def toggleMaximizeWindow (s : OSState) (id : String) : OSState :=
  match findWin s id with
  | none => s
  | some _ => { s with windows := updateWin s.windows id toggleMaxRec }

/-- Record-level body of applySnap (src/index.js lines 573-606): when a snap
candidate is pending, clear the maximized flag and class, write the
edge-specific rectangle into the style, and clear the candidate.  The source
hardcodes menuBarHeight 28 and total dock height 70; 50vw and 100vw are the
container width (the desktop fills the viewport), 100vh the container
height.  The calc expressions divide by two; for even container dimensions
integer division is exact. -/
def snapRec (dockVisible : Bool) (cw ch : Int) (w : WRec) : WRec :=
  match w.isSnapping with
  | none => w
  | some edge =>
    let mbh : Int := 28
    let dth : Int := if dockVisible then 70 else 0
    let rect : Geom :=
      match edge with
      | SnapEdge.left =>
        { top := mbh + 2, left := 2, width := cw / 2 - 4, height := ch - (mbh + dth + 4) }
      | SnapEdge.right =>
        { top := mbh + 2, left := cw / 2 + 2, width := cw / 2 - 4,
          height := ch - (mbh + dth + 4) }
      | SnapEdge.top =>
        { top := mbh + 2, left := 2, width := cw - 4,
          height := ch / 2 - (mbh / 2 + dth / 2 + 2) }
    { w with isMaximized := false, style := rect, isSnapping := none }

/-- applySnap lifted to the state, keyed by window id (the source passes the
record of the dragged window). -/
def applySnap (s : OSState) (id : String) : OSState :=
  match findWin s id with
  | none => s
  | some w =>
    match w.isSnapping with
    | none => s
    | some _ =>
      { s with windows := updateWin s.windows id (snapRec s.isDockVisible s.containerW s.containerH) }

/-- The options object passed to createWindow, restricted to the fields the
registry reads (htmlContent and the setup hooks only affect the window body
and app state). -/
structure CreateOpts where
  baseAppId : String
  x : Option Int
  y : Option Int
  width : Option Int
  height : Option Int
deriving Repr, DecidableEq

/-- The special baseAppIds accepted without an APP_DEFINITIONS entry
(src/index.js line 221). -/
def specialCaseIds : List String := ["ErrorApiKey", "TrashMessage"]

/-- createWindow (src/index.js lines 218-291).  now is Date.now() at the
call; placeX/placeY are the values of the Math.random()-derived default
placement expressions of lines 255-256 (used when options.x / options.y are
absent).  Windows without an explicit or default width/height take the
stylesheet size; the 350/450 fallbacks of the placement formula stand in for
it.  The appended record mirrors lines 262-271 (isMaximized, isSnapping and
originalPosition start undefined); Map.set (line 272) overwrites in place on
a key collision.  The dedup branch (lines 227-232) restores a minimized
existing instance and focuses it. -/
def createWindow (s : OSState) (opts : CreateOpts) (now : Nat) (placeX placeY : Int) : OSState :=
  let appDef := APP_DEFINITIONS.find? (fun d => d.id == opts.baseAppId)
  let isSpecialCase := opts.baseAppId ∈ specialCaseIds
  if appDef = none ∧ ¬isSpecialCase then s
  else if allowsMultiple opts.baseAppId = false ∧
          s.windows.any (fun w => w.baseAppId == opts.baseAppId && w.isOpen) then
    match s.windows.find? (fun w => w.baseAppId == opts.baseAppId && w.isOpen) with
    | none => s
    | some ex =>
      let s1 := if ex.isMinimized then applyRestoreMin s ex.id else s
      focusWindow s1 (some ex.id)
  else
    let windowId := opts.baseAppId ++ "-" ++ toString now
    let g : Geom :=
      { top := opts.y.getD placeY, left := opts.x.getD placeX,
        width := (opts.width.orElse (fun _ => (appDef.bind (fun d => d.defaultWidth)))).getD 350,
        height := (opts.height.orElse (fun _ => (appDef.bind (fun d => d.defaultHeight)))).getD 450 }
    let newWin : WRec :=
      { id := windowId, baseAppId := opts.baseAppId, isMinimized := false, isOpen := true,
        zIndex := s.nextZIndex, isMaximized := false, isSnapping := none,
        originalPosition := none, style := g }
    let s1 := { s with windows := mapSet s.windows windowId newWin,
                       nextZIndex := s.nextZIndex + 1 }
    focusWindow s1 (some windowId)

/-- openApp (src/index.js lines 881-930).  now/placeX/placeY as in
createWindow (openApp always passes explicit x and y computed from
Math.random() and the current window count, modelled by placeX/placeY).
The WBrowse initialUrl option only touches the opaque appSpecificState and
is dropped.  The missing-content-template branch (lines 905-917) depends on
the index.html templates, which exist for every defined app; it is omitted. -/
def openApp (s : OSState) (appId : String) (now : Nat) (placeX placeY : Int) : OSState :=
  match APP_DEFINITIONS.find? (fun d => d.id == appId) with
  | none => s
  | some appDef =>
    if appDef.isLaunchable = false then s
    else if appDef.allowMultipleInstances = false ∧
            s.windows.any (fun w => w.baseAppId == appId && w.isOpen) then
      match s.windows.find? (fun w => w.baseAppId == appId && w.isOpen) with
      | none => s
      | some ex => restoreOpen s ex.id
    else
      createWindow s
        { baseAppId := appId, x := some placeX, y := some placeY,
          width := appDef.defaultWidth, height := appDef.defaultHeight }
        now placeX placeY

/-- restoreWindow (src/index.js lines 363-381).  Branch order is the point:
a minimized record is restored and focused even if it is no longer open; a
non-minimized record that is not open (closing grace period running) makes
restoreWindow launch a brand-new instance through openApp; otherwise the
record is simply focused.  The openApp inputs (timestamp and placement) are
threaded through for the middle branch. -/
def restoreWindow (s : OSState) (id : String) (now : Nat) (placeX placeY : Int) : OSState :=
  match findWin s id with
  | none => s
  | some w =>
    if w.isMinimized then applyRestoreMin s id
    else if w.isOpen = false then openApp s w.baseAppId now placeX placeY
    else focusWindow s (some id)

/-- The mousedown part of makeDraggable (src/index.js lines 422-455) as it
affects the registry: the target window is focused unless already active
(line 435-436), and a drag session only starts when the window is not
maximized (line 439 returns before installing the move handlers).  Desktop
icon drags never touch the registry. -/
def dragStart (s : OSState) (id : String) : OSState :=
  match findWin s id with
  | none => s
  | some _ =>
    if s.activeWindowId = some id then s else focusWindow s (some id)

/-- Writes the pending snap candidate onto the active window, as
showSnapIndicator does (src/index.js lines 551-552). -/
def setSnapOnActive (s : OSState) (edge : SnapEdge) : OSState :=
  match s.activeWindowId with
  | none => s
  | some aid =>
    { s with windows := updateWin s.windows aid (fun w => { w with isSnapping := some edge }) }

/-- One onmousemove step of a window drag (src/index.js lines 457-513).
newX/newY are pointer-minus-offset; they are clamped into the container
(below the menu bar, above the dock including its 10px bottom margin when
visible) and written to the style.  Then the snap candidate is recomputed
from the raw pointer position with threshold 20: near the left, right or top
edge the candidate is stored on the active window; otherwise the candidate
of the dragged window is cleared.  The shake-gesture bookkeeping is a
cosmetic CSS signal and is dropped. -/
def dragMove (s : OSState) (id : String) (newX newY pointerX pointerY : Int) : OSState :=
  match findWin s id with
  | none => s
  | some w =>
    let dockHeight : Int := if s.isDockVisible then s.dockOffsetH + 10 else 0
    let maxX := s.containerW - w.style.width
    let maxY := s.containerH - w.style.height - dockHeight
    let nx := max 0 (min newX maxX)
    let ny := max s.menuBarH (min newY maxY)
    let moveRec : WRec → WRec := fun v => { v with style := { v.style with left := nx, top := ny } }
    let s1 := { s with windows := updateWin s.windows id moveRec }
    if pointerX < 20 then setSnapOnActive s1 SnapEdge.left
    else if pointerX > s.containerW - 20 then setSnapOnActive s1 SnapEdge.right
    else if pointerY < s.menuBarH + 20 then setSnapOnActive s1 SnapEdge.top
    else { s1 with windows := updateWin s1.windows id (fun v => { v with isSnapping := none }) }

/-- The onmouseup part of a window drag (src/index.js lines 516-529): commit
the pending snap candidate, if any, through applySnap; otherwise the window
keeps its last dragged geometry. -/
def dragEnd (s : OSState) (id : String) : OSState :=
  match findWin s id with
  | none => s
  | some w => if w.isSnapping.isSome then applySnap s id else s

/-- The resize-handle mousedown guard of makeResizable (src/index.js line
616): a resize session starts unless the record is maximized or has a snap
candidate pending (the source also proceeds when the element is not in the
registry at all). -/
def resizeSessionAllowed (s : OSState) (id : String) : Bool :=
  match findWin s id with
  | none => true
  | some w => !(w.isMaximized || w.isSnapping.isSome)

/-- One onmousemove step of a resize session (src/index.js lines 623-628):
newWidth/newHeight are start size plus pointer delta; every move clamps to
the minimums 300 and 200 and writes the style directly. -/
def resizeRec (newWidth newHeight : Int) (v : WRec) : WRec :=
  { v with style := { v.style with width := max 300 newWidth, height := max 200 newHeight } }

/-- resizeMove lifted to the state. -/
def resizeMove (s : OSState) (id : String) (newWidth newHeight : Int) : OSState :=
  { s with windows := updateWin s.windows id (resizeRec newWidth newHeight) }

/-- The per-window body of the forEach in toggleDockVisibility (src/index.js
lines 935-943): an open maximized window is toggled twice (restore then
re-maximize under the new constraints) and an open window with a pending snap
candidate is re-snapped. -/
def dockRefreshRec (dv : Bool) (cw ch : Int) (w : WRec) : WRec :=
  if w.isOpen ∧ (w.isMaximized ∨ w.isSnapping.isSome) then
    let w1 := if w.isMaximized then toggleMaxRec (toggleMaxRec w) else w
    if w1.isSnapping.isSome then snapRec dv cw ch w1 else w1
  else w

/-- toggleDockVisibility (src/index.js lines 932-949): flip the flag, then
refresh every open maximized or snap-pending window.  Each per-window call
only rewrites that window record, so the forEach is a map. -/
def toggleDockVisibility (s : OSState) : OSState :=
  { s with isDockVisible := ¬s.isDockVisible,
           windows := s.windows.map
             (dockRefreshRec (¬s.isDockVisible) s.containerW s.containerH) }

/-- One user-interface-level transition of the shell.  Each constructor is a
call path that actually occurs in src/index.js; operations triggered through
controls that sit on the window element (title bar, close / minimize /
maximize buttons, mousedown-to-focus, the Window menu entries, which list
only open non-minimized windows) carry the hypothesis that the target is not
minimized.  Modelled from the spec: a minimized window is hidden (the
minimized class in the stylesheet, which lives outside src/), so its element
and controls cannot receive pointer events, and the spec states that
focusing a minimized window is rejected by callers, who must restore first.
Keyboard paths (close / minimize of the active window) and the dock act
through closeWindow / minimizeWindow / openApp, which are modelled without
extra guards. -/
inductive Step : OSState → OSState → Prop where
  | stepOpenApp (s : OSState) (appId : String) (now : Nat) (px py : Int) :
      Step s (openApp s appId now px py)
  | stepCreate (s : OSState) (opts : CreateOpts) (now : Nat) (px py : Int) :
      Step s (createWindow s opts now px py)
  | stepFocusClick (s : OSState) (id : String)
      (h : ∀ w ∈ s.windows, w.id = id → w.isMinimized = false) :
      Step s (focusWindow s (some id))
  | stepCloseMark (s : OSState) (id : String) : Step s (closeWindow s id)
  | stepCloseTimeout (s : OSState) (id : String) (h : id ∈ s.pendingClose) :
      Step s (closeWindowTimeout s id)
  | stepMinimize (s : OSState) (id : String) : Step s (minimizeWindow s id)
  | stepToggleMax (s : OSState) (id : String)
      (h : ∀ w ∈ s.windows, w.id = id → w.isMinimized = false) :
      Step s (toggleMaximizeWindow s id)
  | stepDragStart (s : OSState) (id : String)
      (h : ∀ w ∈ s.windows, w.id = id → w.isMinimized = false) :
      Step s (dragStart s id)
  | stepDragMove (s : OSState) (id : String) (nx ny px py : Int) :
      Step s (dragMove s id nx ny px py)
  | stepDragEnd (s : OSState) (id : String) : Step s (dragEnd s id)
  | stepResizeMove (s : OSState) (id : String) (nw nh : Int) :
      Step s (resizeMove s id nw nh)
  | stepToggleDock (s : OSState) : Step s (toggleDockVisibility s)

/-- Registry states reachable from boot through the user-interface-level
operations. -/
inductive Reachable : OSState → Prop where
  | init (cw ch : Int) : Reachable (initState cw ch)
  | step {s s' : OSState} : Reachable s → Step s s' → Reachable s'

/-! Helper lemmas about the Map encoding. -/

theorem mem_updateWin {v : WRec} {l : List WRec} {id : String} {f : WRec → WRec}
    (hv : v ∈ updateWin l id f) : ∃ w ∈ l, v = if w.id = id then f w else w := by
  simp only [updateWin, List.mem_map] at hv
  obtain ⟨w, hw, rfl⟩ := hv
  exact ⟨w, hw, rfl⟩

theorem updateWin_map_field {α : Type} (g : WRec → α) (l : List WRec) (id : String)
    (f : WRec → WRec) (hf : ∀ w ∈ l, g (f w) = g w) :
    (updateWin l id f).map g = l.map g := by
  simp only [updateWin, List.map_map]
  refine List.map_congr_left (fun w hw => ?_)
  by_cases h : w.id = id <;> simp [h, hf w hw]

theorem find?_updateWin (l : List WRec) (id j : String) (f : WRec → WRec)
    (hf : ∀ w, (f w).id = w.id) :
    (updateWin l id f).find? (fun w => w.id == j)
      = (l.find? (fun w => w.id == j)).map (fun w => if w.id = id then f w else w) := by
  induction l with
  | nil => rfl
  | cons a t ih =>
    simp only [updateWin, List.map_cons, List.find?_cons]
    have hga : (if a.id = id then f a else a).id = a.id := by
      by_cases h : a.id = id
      · rw [if_pos h, hf a]
      · rw [if_neg h]
    by_cases hj : a.id = j
    · have h1 : ((if a.id = id then f a else a).id == j) = true := by
        rw [hga]; exact beq_iff_eq.2 hj
      have h2 : (a.id == j) = true := beq_iff_eq.2 hj
      simp [h1, h2]
    · have h1 : ((if a.id = id then f a else a).id == j) = false := by
        rw [hga]; exact beq_eq_false_iff_ne.2 hj
      have h2 : (a.id == j) = false := beq_eq_false_iff_ne.2 hj
      simp only [h1, h2]
      exact ih

theorem find?_eq_of_mem_nodup {l : List WRec}
    (hnd : (l.map (fun w => w.id)).Nodup) {w : WRec} (hw : w ∈ l) :
    l.find? (fun v => v.id == w.id) = some w := by
  induction l with
  | nil => cases hw
  | cons a t ih =>
    rcases List.mem_cons.1 hw with rfl | hwt
    · simp [List.find?_cons]
    · have haw : a.id ≠ w.id := by
        intro he
        have : a.id ∈ t.map (fun v => v.id) := by
          rw [he]; exact List.mem_map_of_mem _ hwt
        simp only [List.map_cons, List.nodup_cons] at hnd
        exact hnd.1 this
      have : (a.id == w.id) = false := by simp [haw]
      simp only [List.find?_cons, this]
      exact ih (by simp only [List.map_cons, List.nodup_cons] at hnd; exact hnd.2) hwt

theorem nodup_z_updateWin (l : List WRec) (id : String) (f : WRec → WRec) (n : Nat)
    (hfz : ∀ w, (f w).zIndex = n)
    (hid : (l.map (fun w => w.id)).Nodup)
    (hz : ∀ w ∈ l, w.zIndex < n)
    (hnd : (l.map (fun w => w.zIndex)).Nodup) :
    ((updateWin l id f).map (fun w => w.zIndex)).Nodup := by
  induction l with
  | nil => simp [updateWin]
  | cons a t ih =>
    simp only [List.map_cons, List.nodup_cons] at hid hnd
    have hzt : ∀ w ∈ t, w.zIndex < n := fun w hw => hz w (List.mem_cons_of_mem _ hw)
    have hza : a.zIndex < n := hz a (List.mem_cons_self _ _)
    have hcons : updateWin (a :: t) id f
        = (if a.id = id then f a else a) :: updateWin t id f := rfl
    rw [hcons, List.map_cons, List.nodup_cons]
    refine ⟨?_, ih hid.2 hzt hnd.2⟩
    intro hmem
    rw [List.mem_map] at hmem
    obtain ⟨v, hv, hve⟩ := hmem
    obtain ⟨w, hw, rfl⟩ := mem_updateWin hv
    by_cases ha : a.id = id
    · rw [if_pos ha, hfz a] at hve
      by_cases hwid : w.id = id
      · have : a.id ∈ t.map (fun w => w.id) := by
          rw [ha, ← hwid]; exact List.mem_map_of_mem _ hw
        exact hid.1 this
      · rw [if_neg hwid] at hve
        exact absurd hve (Nat.ne_of_lt (hzt w hw))
    · rw [if_neg ha] at hve
      by_cases hwid : w.id = id
      · rw [if_pos hwid, hfz w] at hve
        exact absurd hve.symm (Nat.ne_of_lt hza)
      · rw [if_neg hwid] at hve
        exact hnd.1 (hve ▸ List.mem_map_of_mem _ hw)

theorem countP_overwrite (l : List WRec) (wid : String) (newW : WRec) (p : WRec → Bool)
    (hnd : (l.map (fun w => w.id)).Nodup)
    (h0 : l.countP p = 0) :
    (l.map (fun v => if v.id = wid then newW else v)).countP p ≤ 1 := by
  induction l with
  | nil => simp
  | cons a t ih =>
    simp only [List.map_cons, List.nodup_cons] at hnd
    have h0' : (p a = false) ∧ t.countP p = 0 := by
      rw [List.countP_cons] at h0
      constructor
      · by_cases hpa : p a = true
        · simp [hpa] at h0
        · simpa using hpa
      · omega
    by_cases ha : a.id = wid
    · have ht : t.map (fun v => if v.id = wid then newW else v) = t := by
        have hall : ∀ v ∈ t, (if v.id = wid then newW else v) = v := by
          intro v hv
          have hvne : v.id ≠ wid := by
            intro he
            refine hnd.1 ?_
            rw [ha, ← he]
            exact List.mem_map_of_mem _ hv
          rw [if_neg hvne]
        rw [List.map_congr_left hall]
        simp
      rw [List.map_cons, if_pos ha, ht, List.countP_cons, h0'.2]
      split <;> omega
    · have hle := ih hnd.2 h0'.2
      rw [List.map_cons, if_neg ha, List.countP_cons, h0'.1]
      simp only [Bool.false_eq_true, if_false]
      omega

/-! The registry invariant.  PreInv collects the per-window clauses; ActiveInv
is the focused-window clause, which is transiently broken between the insert
and the focus call inside createWindow, hence kept separate. -/

/-- A record is never both minimized and maximized. -/
def mutexP (w : WRec) : Prop := ¬(w.isMinimized = true ∧ w.isMaximized = true)

/-- A minimized or maximized record carries a saved-geometry snapshot. -/
def savedP (w : WRec) : Prop :=
  (w.isMinimized = true ∨ w.isMaximized = true) → w.originalPosition.isSome = true

/-- The membership predicate used by the single-instance bookkeeping: an open
record of the given app kind. -/
def openOf (k : String) (w : WRec) : Bool := w.baseAppId == k && w.isOpen

/-- The window-list clauses of the registry invariant. -/
structure PreInv (s : OSState) : Prop where
  nodupId : (s.windows.map (fun w => w.id)).Nodup
  zLt : ∀ w ∈ s.windows, w.zIndex < s.nextZIndex
  nodupZ : (s.windows.map (fun w => w.zIndex)).Nodup
  singleInst : ∀ k, allowsMultiple k = false → s.windows.countP (openOf k) ≤ 1
  mutex : ∀ w ∈ s.windows, mutexP w
  savedGeom : ∀ w ∈ s.windows, savedP w

/-- The focused-window clause: activeWindowId names an existing non-minimized
record holding the top zIndex. -/
def ActiveInv (s : OSState) : Prop :=
  ∀ id, s.activeWindowId = some id →
    ∃ w ∈ s.windows, w.id = id ∧ w.isMinimized = false ∧ w.zIndex = s.nextZIndex - 1

/-- The full registry invariant. -/
def Inv (s : OSState) : Prop := PreInv s ∧ ActiveInv s

/-! Master preservation lemmas for rewrites of the window list that keep every
zIndex unchanged. -/

theorem preinv_map {s s' : OSState} (g : WRec → WRec)
    (hwin : s'.windows = s.windows.map g)
    (hnext : s'.nextZIndex = s.nextZIndex)
    (hid : ∀ w ∈ s.windows, (g w).id = w.id)
    (hz : ∀ w ∈ s.windows, (g w).zIndex = w.zIndex)
    (hbase : ∀ w ∈ s.windows, (g w).baseAppId = w.baseAppId)
    (hopen : ∀ w ∈ s.windows, (g w).isOpen = true → w.isOpen = true)
    (hmutex : ∀ w ∈ s.windows, mutexP w → mutexP (g w))
    (hsaved : ∀ w ∈ s.windows, savedP w → savedP (g w))
    (h : PreInv s) : PreInv s' := by
  constructor
  · rw [hwin, List.map_map]
    rw [show s.windows.map ((fun w => w.id) ∘ g) = s.windows.map (fun w => w.id) from
      List.map_congr_left (fun w hw => hid w hw)]
    exact h.nodupId
  · intro v hv
    rw [hwin] at hv
    obtain ⟨w, hw, rfl⟩ := List.mem_map.1 hv
    rw [hnext, hz w hw]
    exact h.zLt w hw
  · rw [hwin, List.map_map]
    rw [show s.windows.map ((fun w => w.zIndex) ∘ g) = s.windows.map (fun w => w.zIndex) from
      List.map_congr_left (fun w hw => hz w hw)]
    exact h.nodupZ
  · intro k hk
    rw [hwin, List.countP_map]
    refine le_trans (List.countP_mono_left (fun w hw hp => ?_)) (h.singleInst k hk)
    simp only [Function.comp_apply, openOf, Bool.and_eq_true, beq_iff_eq] at hp ⊢
    exact ⟨by rw [← hbase w hw]; exact hp.1, hopen w hw hp.2⟩
  · intro v hv
    rw [hwin] at hv
    obtain ⟨w, hw, rfl⟩ := List.mem_map.1 hv
    exact hmutex w hw (h.mutex w hw)
  · intro v hv
    rw [hwin] at hv
    obtain ⟨w, hw, rfl⟩ := List.mem_map.1 hv
    exact hsaved w hw (h.savedGeom w hw)

theorem activeinv_map {s s' : OSState} (g : WRec → WRec)
    (hwin : s'.windows = s.windows.map g)
    (hact : s'.activeWindowId = s.activeWindowId)
    (hnext : s'.nextZIndex = s.nextZIndex)
    (hid : ∀ w ∈ s.windows, (g w).id = w.id)
    (hz : ∀ w ∈ s.windows, (g w).zIndex = w.zIndex)
    (hmin : ∀ w ∈ s.windows, w.isMinimized = false → (g w).isMinimized = false)
    (h : ActiveInv s) : ActiveInv s' := by
  intro id hida
  rw [hact] at hida
  obtain ⟨w, hw, hwid, hwmin, hwz⟩ := h id hida
  exact ⟨g w, by rw [hwin]; exact List.mem_map_of_mem _ hw,
    by rw [hid w hw, hwid], hmin w hw hwmin, by rw [hz w hw, hnext, hwz]⟩

/-- updateWin is a map, so the master lemmas apply to it; this bridges the
membership-conditional hypotheses. -/
theorem updateWin_eq_map (l : List WRec) (id : String) (f : WRec → WRec) :
    updateWin l id f = l.map (fun w => if w.id = id then f w else w) := rfl

/-! Reduction lemmas exposing the branches of each operation. -/

theorem focusWindow_none (s : OSState) :
    focusWindow s none = { s with activeWindowId := none } := rfl

theorem focusWindow_not_found {s : OSState} {id : String} (h : findWin s id = none) :
    focusWindow s (some id) = { s with activeWindowId := none } := by
  unfold focusWindow
  dsimp only
  rw [h]

theorem focusWindow_early {s : OSState} {id : String} {w : WRec}
    (h : findWin s id = some w)
    (hc : s.activeWindowId = some id ∧ w.zIndex = s.nextZIndex - 1 ∧ w.isMinimized = false) :
    focusWindow s (some id) = s := by
  unfold focusWindow
  dsimp only
  rw [h]
  exact if_pos hc

theorem focusWindow_bump {s : OSState} {id : String} {w : WRec}
    (h : findWin s id = some w)
    (hc : ¬(s.activeWindowId = some id ∧ w.zIndex = s.nextZIndex - 1 ∧ w.isMinimized = false)) :
    focusWindow s (some id)
      = { s with activeWindowId := some id,
                 windows := updateWin s.windows id (fun v => { v with zIndex := s.nextZIndex }),
                 nextZIndex := s.nextZIndex + 1 } := by
  unfold focusWindow
  dsimp only
  rw [h]
  exact if_neg hc

theorem closeWindow_not_found {s : OSState} {id : String} (h : findWin s id = none) :
    closeWindow s id = s := by
  unfold closeWindow
  rw [h]

theorem closeWindow_found {s : OSState} {id : String} {w : WRec} (h : findWin s id = some w) :
    closeWindow s id
      = { s with windows := updateWin s.windows id (fun v => { v with isOpen := false }),
                 pendingClose := s.pendingClose ++ [id] } := by
  unfold closeWindow
  rw [h]

theorem minimizeWindow_not_found {s : OSState} {id : String} (h : findWin s id = none) :
    minimizeWindow s id = s := by
  unfold minimizeWindow
  rw [h]

theorem minimizeWindow_already {s : OSState} {id : String} {w : WRec}
    (h : findWin s id = some w) (hmin : w.isMinimized = true) :
    minimizeWindow s id = s := by
  unfold minimizeWindow
  rw [h]
  simp [hmin]

theorem minimizeWindow_found {s : OSState} {id : String} {w : WRec}
    (h : findWin s id = some w) (hmin : w.isMinimized = false) :
    minimizeWindow s id
      = (if s.activeWindowId = some id then
          { s with windows := updateWin s.windows id minimizeRec, activeWindowId := none }
         else { s with windows := updateWin s.windows id minimizeRec }) := by
  unfold minimizeWindow
  rw [h]
  simp only [hmin, Bool.false_eq_true, if_false]

theorem restoreOpen_not_found {s : OSState} {id : String} (h : findWin s id = none) :
    restoreOpen s id = s := by
  unfold restoreOpen
  rw [h]

theorem restoreOpen_minimized {s : OSState} {id : String} {w : WRec}
    (h : findWin s id = some w) (hmin : w.isMinimized = true) :
    restoreOpen s id = applyRestoreMin s id := by
  unfold restoreOpen
  rw [h]
  simp [hmin]

theorem restoreOpen_plain {s : OSState} {id : String} {w : WRec}
    (h : findWin s id = some w) (hmin : w.isMinimized = false) :
    restoreOpen s id = focusWindow s (some id) := by
  unfold restoreOpen
  rw [h]
  simp [hmin]

theorem toggleMaximizeWindow_not_found {s : OSState} {id : String} (h : findWin s id = none) :
    toggleMaximizeWindow s id = s := by
  unfold toggleMaximizeWindow
  rw [h]

theorem toggleMaximizeWindow_found {s : OSState} {id : String} {w : WRec}
    (h : findWin s id = some w) :
    toggleMaximizeWindow s id = { s with windows := updateWin s.windows id toggleMaxRec } := by
  unfold toggleMaximizeWindow
  rw [h]

theorem applySnap_not_found {s : OSState} {id : String} (h : findWin s id = none) :
    applySnap s id = s := by
  unfold applySnap
  rw [h]

theorem applySnap_no_candidate {s : OSState} {id : String} {w : WRec}
    (h : findWin s id = some w) (hs : w.isSnapping = none) :
    applySnap s id = s := by
  unfold applySnap
  rw [h]
  dsimp only
  rw [hs]

theorem applySnap_commit {s : OSState} {id : String} {w : WRec} {e : SnapEdge}
    (h : findWin s id = some w) (hs : w.isSnapping = some e) :
    applySnap s id
      = { s with windows :=
            updateWin s.windows id (snapRec s.isDockVisible s.containerW s.containerH) } := by
  unfold applySnap
  rw [h]
  dsimp only
  rw [hs]

theorem dragStart_not_found {s : OSState} {id : String} (h : findWin s id = none) :
    dragStart s id = s := by
  unfold dragStart
  rw [h]

theorem dragStart_active {s : OSState} {id : String} {w : WRec}
    (h : findWin s id = some w) (ha : s.activeWindowId = some id) :
    dragStart s id = s := by
  unfold dragStart
  rw [h]
  simp [ha]

theorem dragStart_focus {s : OSState} {id : String} {w : WRec}
    (h : findWin s id = some w) (ha : ¬s.activeWindowId = some id) :
    dragStart s id = focusWindow s (some id) := by
  unfold dragStart
  rw [h]
  simp [ha]

theorem dragEnd_not_found {s : OSState} {id : String} (h : findWin s id = none) :
    dragEnd s id = s := by
  unfold dragEnd
  rw [h]

theorem dragEnd_snap {s : OSState} {id : String} {w : WRec}
    (h : findWin s id = some w) (hs : w.isSnapping.isSome = true) :
    dragEnd s id = applySnap s id := by
  unfold dragEnd
  rw [h]
  simp [hs]

theorem dragEnd_plain {s : OSState} {id : String} {w : WRec}
    (h : findWin s id = some w) (hs : w.isSnapping.isSome = false) :
    dragEnd s id = s := by
  unfold dragEnd
  rw [h]
  simp [hs]

theorem restoreWindow_not_found {s : OSState} {id : String} {now : Nat} {px py : Int}
    (h : findWin s id = none) : restoreWindow s id now px py = s := by
  unfold restoreWindow
  rw [h]

theorem restoreWindow_minimized {s : OSState} {id : String} {w : WRec} {now : Nat} {px py : Int}
    (h : findWin s id = some w) (hmin : w.isMinimized = true) :
    restoreWindow s id now px py = applyRestoreMin s id := by
  unfold restoreWindow
  rw [h]
  simp [hmin]

theorem restoreWindow_closing {s : OSState} {id : String} {w : WRec} {now : Nat} {px py : Int}
    (h : findWin s id = some w) (hmin : w.isMinimized = false) (hop : w.isOpen = false) :
    restoreWindow s id now px py = openApp s w.baseAppId now px py := by
  unfold restoreWindow
  rw [h]
  simp [hmin, hop]

theorem restoreWindow_plain {s : OSState} {id : String} {w : WRec} {now : Nat} {px py : Int}
    (h : findWin s id = some w) (hmin : w.isMinimized = false) (hop : w.isOpen = true) :
    restoreWindow s id now px py = focusWindow s (some id) := by
  unfold restoreWindow
  rw [h]
  simp [hmin, hop]

/-! Preservation of the invariant by the individual operations. -/

theorem inv_focusWindow_none {s : OSState} (h : PreInv s) :
    Inv (focusWindow s none) := by
  refine ⟨?_, ?_⟩
  · exact { nodupId := h.nodupId, zLt := h.zLt, nodupZ := h.nodupZ,
            singleInst := h.singleInst, mutex := h.mutex, savedGeom := h.savedGeom }
  · intro id hida
    simp [focusWindow] at hida

theorem inv_focusWindow_some {s : OSState} {id : String}
    (hguard : ∀ w ∈ s.windows, w.id = id → w.isMinimized = false)
    (h : PreInv s) : Inv (focusWindow s (some id)) := by
  cases hfind : findWin s id with
  | none =>
    rw [focusWindow_not_found hfind]
    refine ⟨?_, ?_⟩
    · exact { nodupId := h.nodupId, zLt := h.zLt, nodupZ := h.nodupZ,
              singleInst := h.singleInst, mutex := h.mutex, savedGeom := h.savedGeom }
    · intro j hj
      simp at hj
  | some w =>
    have hwmem : w ∈ s.windows := by
      have h2 := hfind
      unfold findWin at h2
      exact List.mem_of_find?_eq_some h2
    have hwid : w.id = id := by
      have h2 := hfind
      unfold findWin at h2
      have h3 := List.find?_some h2
      simpa using h3
    by_cases hcond : s.activeWindowId = some id ∧ w.zIndex = s.nextZIndex - 1 ∧
        w.isMinimized = false
    · rw [focusWindow_early hfind hcond]
      exact ⟨h, fun j hj => by
        rw [hcond.1] at hj
        obtain rfl : id = j := by simpa using hj
        exact ⟨w, hwmem, hwid, hcond.2.2, hcond.2.1⟩⟩
    · rw [focusWindow_bump hfind hcond]
      set f : WRec → WRec := fun v => { v with zIndex := s.nextZIndex } with hf
      refine ⟨?_, ?_⟩
      · constructor
        · rw [show (updateWin s.windows id f).map (fun w => w.id)
              = s.windows.map (fun w => w.id) from
            updateWin_map_field _ _ _ _ (fun v _ => rfl)]
          exact h.nodupId
        · intro v hv
          obtain ⟨u, hu, rfl⟩ := mem_updateWin hv
          by_cases hui : u.id = id
          · rw [if_pos hui]
            exact Nat.lt_succ_self _
          · rw [if_neg hui]
            exact Nat.lt_succ_of_lt (h.zLt u hu)
        · exact nodup_z_updateWin s.windows id f s.nextZIndex (fun _ => rfl)
            h.nodupId h.zLt h.nodupZ
        · intro k hk
          rw [updateWin_eq_map, List.countP_map]
          refine le_trans (List.countP_mono_left (fun v hv hp => ?_)) (h.singleInst k hk)
          by_cases hvi : v.id = id
          · simpa [hvi, openOf] using hp
          · simpa [hvi] using hp
        · intro v hv
          obtain ⟨u, hu, rfl⟩ := mem_updateWin hv
          have hm := h.mutex u hu
          by_cases hui : u.id = id <;>
            simp only [hui, if_pos, if_neg, if_true, if_false] <;> exact hm
        · intro v hv
          obtain ⟨u, hu, rfl⟩ := mem_updateWin hv
          have hm := h.savedGeom u hu
          by_cases hui : u.id = id <;>
            simp only [hui, if_pos, if_neg, if_true, if_false] <;> exact hm
      · intro j hj
        obtain rfl : id = j := by simpa using hj
        refine ⟨f w, ?_, ?_, ?_, ?_⟩
        · have : (if w.id = id then f w else w) ∈ updateWin s.windows id f :=
            List.mem_map_of_mem _ hwmem
          rwa [if_pos hwid] at this
        · simpa [hf] using hwid
        · simpa [hf] using hguard w hwmem hwid
        · simp [hf]

/-! Field-preservation facts for the record-level transformations. -/

theorem toggleMaxRec_id (w : WRec) : (toggleMaxRec w).id = w.id := by
  unfold toggleMaxRec
  split <;> rfl

theorem toggleMaxRec_z (w : WRec) : (toggleMaxRec w).zIndex = w.zIndex := by
  unfold toggleMaxRec
  split <;> rfl

theorem toggleMaxRec_base (w : WRec) : (toggleMaxRec w).baseAppId = w.baseAppId := by
  unfold toggleMaxRec
  split <;> rfl

theorem toggleMaxRec_open (w : WRec) : (toggleMaxRec w).isOpen = w.isOpen := by
  unfold toggleMaxRec
  split <;> rfl

theorem toggleMaxRec_min (w : WRec) : (toggleMaxRec w).isMinimized = w.isMinimized := by
  unfold toggleMaxRec
  split <;> rfl

theorem snapRec_id (dv : Bool) (cw ch : Int) (w : WRec) : (snapRec dv cw ch w).id = w.id := by
  unfold snapRec
  split
  · rfl
  · split <;> rfl

theorem snapRec_z (dv : Bool) (cw ch : Int) (w : WRec) :
    (snapRec dv cw ch w).zIndex = w.zIndex := by
  unfold snapRec
  split
  · rfl
  · split <;> rfl

theorem snapRec_base (dv : Bool) (cw ch : Int) (w : WRec) :
    (snapRec dv cw ch w).baseAppId = w.baseAppId := by
  unfold snapRec
  split
  · rfl
  · split <;> rfl

theorem snapRec_open (dv : Bool) (cw ch : Int) (w : WRec) :
    (snapRec dv cw ch w).isOpen = w.isOpen := by
  unfold snapRec
  split
  · rfl
  · split <;> rfl

theorem snapRec_min (dv : Bool) (cw ch : Int) (w : WRec) :
    (snapRec dv cw ch w).isMinimized = w.isMinimized := by
  unfold snapRec
  split
  · rfl
  · split <;> rfl

theorem snapRec_max (dv : Bool) (cw ch : Int) (w : WRec) :
    (snapRec dv cw ch w).isMaximized = false ∨ snapRec dv cw ch w = w := by
  unfold snapRec
  split
  · right; rfl
  · left; split <;> rfl

theorem snapRec_orig (dv : Bool) (cw ch : Int) (w : WRec) :
    (snapRec dv cw ch w).originalPosition = w.originalPosition := by
  unfold snapRec
  split
  · rfl
  · split <;> rfl

theorem snapRec_mutex (dv : Bool) (cw ch : Int) (w : WRec) (h : mutexP w) :
    mutexP (snapRec dv cw ch w) := by
  rcases snapRec_max dv cw ch w with hm | he
  · intro hc
    rw [hm] at hc
    exact absurd hc.2 (by simp)
  · rw [he]
    exact h

theorem snapRec_saved (dv : Bool) (cw ch : Int) (w : WRec) (h : savedP w) :
    savedP (snapRec dv cw ch w) := by
  intro hc
  rw [snapRec_orig]
  rcases hc with hc | hc
  · exact h (Or.inl (by rw [← snapRec_min dv cw ch w]; exact hc))
  · rcases snapRec_max dv cw ch w with hm | he
    · rw [hm] at hc
      cases hc
    · rw [he] at hc
      exact h (Or.inr hc)

/-! Invariant preservation, operation by operation. -/

theorem inv_closeWindow {s : OSState} (id : String) (h : Inv s) : Inv (closeWindow s id) := by
  cases hfind : findWin s id with
  | none =>
    rw [closeWindow_not_found hfind]
    exact h
  | some w =>
    rw [closeWindow_found hfind]
    constructor
    · refine preinv_map (fun v => if v.id = id then { v with isOpen := false } else v)
        rfl rfl ?_ ?_ ?_ ?_ ?_ ?_ h.1
      · intro v hv
        by_cases hvi : v.id = id <;> simp [hvi]
      · intro v hv
        by_cases hvi : v.id = id <;> simp [hvi]
      · intro v hv
        by_cases hvi : v.id = id <;> simp [hvi]
      · intro v hv hop
        by_cases hvi : v.id = id
        · simp only [if_pos hvi] at hop
          simp at hop
        · simpa only [if_neg hvi] using hop
      · intro v hv hm
        by_cases hvi : v.id = id
        · simp only [if_pos hvi]
          intro hc
          exact hm ⟨hc.1, hc.2⟩
        · simpa only [if_neg hvi] using hm
      · intro v hv hm
        by_cases hvi : v.id = id
        · simp only [if_pos hvi]
          intro hc
          exact hm (by simpa using hc)
        · simpa only [if_neg hvi] using hm
    · refine activeinv_map (fun v => if v.id = id then { v with isOpen := false } else v)
        rfl rfl rfl ?_ ?_ ?_ h.2
      · intro v hv
        by_cases hvi : v.id = id <;> simp [hvi]
      · intro v hv
        by_cases hvi : v.id = id <;> simp [hvi]
      · intro v hv hm
        by_cases hvi : v.id = id <;> simp [hvi, hm]

theorem inv_closeWindowTimeout {s : OSState} (id : String) (h : Inv s) :
    Inv (closeWindowTimeout s id) := by
  have hpre : ∀ t : OSState, t.windows = s.windows.filter (fun w => ¬(w.id = id)) →
      t.nextZIndex = s.nextZIndex → PreInv t := by
    intro t hw hn
    have hsub : t.windows.Sublist s.windows := by
      rw [hw]; exact List.filter_sublist s.windows
    constructor
    · exact List.Nodup.sublist (List.Sublist.map _ hsub) h.1.nodupId
    · intro v hv
      rw [hn]
      exact h.1.zLt v (hsub.subset hv)
    · exact List.Nodup.sublist (List.Sublist.map _ hsub) h.1.nodupZ
    · intro k hk
      exact le_trans (List.Sublist.countP_le _ hsub) (h.1.singleInst k hk)
    · intro v hv
      exact h.1.mutex v (hsub.subset hv)
    · intro v hv
      exact h.1.savedGeom v (hsub.subset hv)
  unfold closeWindowTimeout
  by_cases ha : s.activeWindowId = some id
  · rw [if_pos ha]
    refine ⟨hpre _ rfl rfl, ?_⟩
    intro j hj
    simp at hj
  · rw [if_neg ha]
    refine ⟨hpre _ rfl rfl, ?_⟩
    intro j hj
    simp only at hj
    obtain ⟨w, hw, hwid, hwmin, hwz⟩ := h.2 j hj
    have hji : j ≠ id := by
      intro he
      rw [he] at hj
      exact ha hj
    refine ⟨w, ?_, hwid, hwmin, hwz⟩
    rw [List.mem_filter]
    exact ⟨hw, by simp [hwid, hji]⟩

theorem inv_minimizeWindow {s : OSState} (id : String) (h : Inv s) :
    Inv (minimizeWindow s id) := by
  cases hfind : findWin s id with
  | none =>
    rw [minimizeWindow_not_found hfind]
    exact h
  | some w =>
    by_cases hmin : w.isMinimized = true
    · rw [minimizeWindow_already hfind hmin]
      exact h
    · have hmin' : w.isMinimized = false := by simpa using hmin
      rw [minimizeWindow_found hfind hmin']
      have hpremk : ∀ t : OSState, t.windows = updateWin s.windows id minimizeRec →
          t.nextZIndex = s.nextZIndex → PreInv t := by
        intro t hw hn
        refine preinv_map (fun v => if v.id = id then minimizeRec v else v)
          hw hn ?_ ?_ ?_ ?_ ?_ ?_ h.1
        · intro v hv
          by_cases hvi : v.id = id <;> simp [hvi, minimizeRec]
        · intro v hv
          by_cases hvi : v.id = id <;> simp [hvi, minimizeRec]
        · intro v hv
          by_cases hvi : v.id = id <;> simp [hvi, minimizeRec]
        · intro v hv hop
          by_cases hvi : v.id = id
          · simp only [if_pos hvi] at hop
            exact hop
          · simpa only [if_neg hvi] using hop
        · intro v hv hm
          by_cases hvi : v.id = id
          · simp only [if_pos hvi]
            intro hc
            simp [minimizeRec] at hc
          · simpa only [if_neg hvi] using hm
        · intro v hv hm
          by_cases hvi : v.id = id
          · simp only [if_pos hvi]
            intro hc
            simp [minimizeRec]
          · simpa only [if_neg hvi] using hm
      by_cases ha : s.activeWindowId = some id
      · rw [if_pos ha]
        refine ⟨hpremk _ rfl rfl, ?_⟩
        intro j hj
        simp at hj
      · rw [if_neg ha]
        refine ⟨hpremk _ rfl rfl, ?_⟩
        intro j hj
        simp only at hj
        obtain ⟨wa, hwa, hwaid, hwamin, hwaz⟩ := h.2 j hj
        have hji : j ≠ id := by
          intro he
          rw [he] at hj
          exact ha hj
        have hwane : wa.id ≠ id := by rw [hwaid]; exact hji
        refine ⟨wa, ?_, hwaid, hwamin, hwaz⟩
        have : (if wa.id = id then minimizeRec wa else wa) ∈ updateWin s.windows id minimizeRec :=
          List.mem_map_of_mem _ hwa
        rwa [if_neg hwane] at this

theorem restoreMin_unminimized {s : OSState} {id : String} :
    ∀ v ∈ updateWin s.windows id restoreMinRec, v.id = id → v.isMinimized = false := by
  intro v hv hvi
  obtain ⟨u, hu, rfl⟩ := mem_updateWin hv
  by_cases hui : u.id = id
  · simp only [if_pos hui]
    rfl
  · rw [if_neg hui] at hvi ⊢
    exact absurd hvi hui

theorem inv_applyRestoreMin {s : OSState} (id : String) (h : PreInv s) :
    Inv (applyRestoreMin s id) := by
  unfold applyRestoreMin
  refine inv_focusWindow_some restoreMin_unminimized ?_
  refine preinv_map (fun v => if v.id = id then restoreMinRec v else v)
    rfl rfl ?_ ?_ ?_ ?_ ?_ ?_ h
  · intro v hv
    by_cases hvi : v.id = id <;> simp [hvi, restoreMinRec]
  · intro v hv
    by_cases hvi : v.id = id <;> simp [hvi, restoreMinRec]
  · intro v hv
    by_cases hvi : v.id = id <;> simp [hvi, restoreMinRec]
  · intro v hv hop
    by_cases hvi : v.id = id
    · simp only [if_pos hvi] at hop
      exact hop
    · simpa only [if_neg hvi] using hop
  · intro v hv hm
    by_cases hvi : v.id = id
    · simp only [if_pos hvi]
      intro hc
      simp [restoreMinRec] at hc
    · simpa only [if_neg hvi] using hm
  · intro v hv hm
    by_cases hvi : v.id = id
    · simp only [if_pos hvi]
      intro hc
      rcases hc with hc | hc
      · simp [restoreMinRec] at hc
      · have : v.isMaximized = true := hc
        simp only [restoreMinRec]
        exact hm (Or.inr this)
    · simpa only [if_neg hvi] using hm

theorem inv_toggleMaximizeWindow {s : OSState} {id : String}
    (hguard : ∀ w ∈ s.windows, w.id = id → w.isMinimized = false)
    (h : Inv s) : Inv (toggleMaximizeWindow s id) := by
  cases hfind : findWin s id with
  | none =>
    rw [toggleMaximizeWindow_not_found hfind]
    exact h
  | some w =>
    rw [toggleMaximizeWindow_found hfind]
    constructor
    · refine preinv_map (fun v => if v.id = id then toggleMaxRec v else v)
        rfl rfl ?_ ?_ ?_ ?_ ?_ ?_ h.1
      · intro v hv
        by_cases hvi : v.id = id <;> simp [hvi, toggleMaxRec_id]
      · intro v hv
        by_cases hvi : v.id = id <;> simp [hvi, toggleMaxRec_z]
      · intro v hv
        by_cases hvi : v.id = id <;> simp [hvi, toggleMaxRec_base]
      · intro v hv hop
        by_cases hvi : v.id = id
        · simp only [if_pos hvi, toggleMaxRec_open] at hop
          exact hop
        · simpa only [if_neg hvi] using hop
      · intro v hv hm
        by_cases hvi : v.id = id
        · simp only [if_pos hvi]
          intro hc
          rw [toggleMaxRec_min] at hc
          exact absurd hc.1 (by rw [hguard v hv hvi]; simp)
        · simpa only [if_neg hvi] using hm
      · intro v hv hm
        by_cases hvi : v.id = id
        · simp only [if_pos hvi]
          have hvm : v.isMinimized = false := hguard v hv hvi
          intro hc
          unfold toggleMaxRec
          unfold toggleMaxRec at hc
          by_cases hmax : v.isMaximized = true
          · rw [if_pos hmax] at hc ⊢
            rcases hc with hc | hc
            · exact absurd hc (by simp [hvm])
            · exact absurd hc (by simp)
          · rw [if_neg hmax] at hc ⊢
            simp
        · simpa only [if_neg hvi] using hm
    · refine activeinv_map (fun v => if v.id = id then toggleMaxRec v else v)
        rfl rfl rfl ?_ ?_ ?_ h.2
      · intro v hv
        by_cases hvi : v.id = id <;> simp [hvi, toggleMaxRec_id]
      · intro v hv
        by_cases hvi : v.id = id <;> simp [hvi, toggleMaxRec_z]
      · intro v hv hm
        by_cases hvi : v.id = id <;> simp [hvi, toggleMaxRec_min, hm]

theorem inv_applySnap {s : OSState} (id : String) (h : Inv s) : Inv (applySnap s id) := by
  cases hfind : findWin s id with
  | none =>
    rw [applySnap_not_found hfind]
    exact h
  | some w =>
    cases hs : w.isSnapping with
    | none =>
      rw [applySnap_no_candidate hfind hs]
      exact h
    | some e =>
      rw [applySnap_commit hfind hs]
      constructor
      · refine preinv_map
          (fun v => if v.id = id then snapRec s.isDockVisible s.containerW s.containerH v else v)
          rfl rfl ?_ ?_ ?_ ?_ ?_ ?_ h.1
        · intro v hv
          by_cases hvi : v.id = id <;> simp [hvi, snapRec_id]
        · intro v hv
          by_cases hvi : v.id = id <;> simp [hvi, snapRec_z]
        · intro v hv
          by_cases hvi : v.id = id <;> simp [hvi, snapRec_base]
        · intro v hv hop
          by_cases hvi : v.id = id
          · simp only [if_pos hvi, snapRec_open] at hop
            exact hop
          · simpa only [if_neg hvi] using hop
        · intro v hv hm
          by_cases hvi : v.id = id
          · simp only [if_pos hvi]
            exact snapRec_mutex _ _ _ _ hm
          · simpa only [if_neg hvi] using hm
        · intro v hv hm
          by_cases hvi : v.id = id
          · simp only [if_pos hvi]
            exact snapRec_saved _ _ _ _ hm
          · simpa only [if_neg hvi] using hm
      · refine activeinv_map
          (fun v => if v.id = id then snapRec s.isDockVisible s.containerW s.containerH v else v)
          rfl rfl rfl ?_ ?_ ?_ h.2
        · intro v hv
          by_cases hvi : v.id = id <;> simp [hvi, snapRec_id]
        · intro v hv
          by_cases hvi : v.id = id <;> simp [hvi, snapRec_z]
        · intro v hv hm
          by_cases hvi : v.id = id <;> simp [hvi, snapRec_min, hm]

theorem inv_styleOnlyUpdate {s : OSState} (id : String) (f : WRec → WRec)
    (hstyle : ∀ v, ∃ g o, f v = { v with style := g, isSnapping := o })
    (h : Inv s) : Inv { s with windows := updateWin s.windows id f } := by
  have hfacts : ∀ v, (f v).id = v.id ∧ (f v).zIndex = v.zIndex ∧ (f v).baseAppId = v.baseAppId ∧
      (f v).isOpen = v.isOpen ∧ (f v).isMinimized = v.isMinimized ∧
      (f v).isMaximized = v.isMaximized ∧ (f v).originalPosition = v.originalPosition := by
    intro v
    obtain ⟨g, o, he⟩ := hstyle v
    rw [he]
    exact ⟨rfl, rfl, rfl, rfl, rfl, rfl, rfl⟩
  constructor
  · refine preinv_map (fun v => if v.id = id then f v else v)
      rfl rfl ?_ ?_ ?_ ?_ ?_ ?_ h.1
    · intro v hv
      by_cases hvi : v.id = id <;> simp [hvi, (hfacts v).1]
    · intro v hv
      by_cases hvi : v.id = id <;> simp [hvi, (hfacts v).2.1]
    · intro v hv
      by_cases hvi : v.id = id <;> simp [hvi, (hfacts v).2.2.1]
    · intro v hv hop
      by_cases hvi : v.id = id
      · simp only [if_pos hvi, (hfacts v).2.2.2.1] at hop
        exact hop
      · simpa only [if_neg hvi] using hop
    · intro v hv hm
      by_cases hvi : v.id = id
      · simp only [if_pos hvi]
        intro hc
        rw [(hfacts v).2.2.2.2.1, (hfacts v).2.2.2.2.2.1] at hc
        exact hm hc
      · simpa only [if_neg hvi] using hm
    · intro v hv hm
      by_cases hvi : v.id = id
      · simp only [if_pos hvi]
        intro hc
        rw [(hfacts v).2.2.2.2.1, (hfacts v).2.2.2.2.2.1] at hc
        rw [(hfacts v).2.2.2.2.2.2]
        exact hm hc
      · simpa only [if_neg hvi] using hm
  · refine activeinv_map (fun v => if v.id = id then f v else v)
      rfl rfl rfl ?_ ?_ ?_ h.2
    · intro v hv
      by_cases hvi : v.id = id <;> simp [hvi, (hfacts v).1]
    · intro v hv
      by_cases hvi : v.id = id <;> simp [hvi, (hfacts v).2.1]
    · intro v hv hm
      by_cases hvi : v.id = id <;> simp [hvi, (hfacts v).2.2.2.2.1, hm]

theorem setSnapOnActive_none {s : OSState} {e : SnapEdge} (h : s.activeWindowId = none) :
    setSnapOnActive s e = s := by
  unfold setSnapOnActive
  rw [h]

theorem setSnapOnActive_some {s : OSState} {e : SnapEdge} {aid : String}
    (h : s.activeWindowId = some aid) :
    setSnapOnActive s e
      = { s with windows := updateWin s.windows aid (fun v => { v with isSnapping := some e }) } := by
  unfold setSnapOnActive
  rw [h]

theorem inv_setSnapOnActive {s : OSState} (e : SnapEdge) (h : Inv s) :
    Inv (setSnapOnActive s e) := by
  cases ha : s.activeWindowId with
  | none =>
    rw [setSnapOnActive_none ha]
    exact h
  | some aid =>
    rw [setSnapOnActive_some ha]
    exact inv_styleOnlyUpdate aid _ (fun v => ⟨v.style, some e, rfl⟩) h

theorem inv_resizeMove {s : OSState} (id : String) (nw nh : Int) (h : Inv s) :
    Inv (resizeMove s id nw nh) := by
  unfold resizeMove
  exact inv_styleOnlyUpdate id _ (fun v => ⟨_, v.isSnapping, rfl⟩) h

theorem inv_dragStart {s : OSState} {id : String}
    (hguard : ∀ w ∈ s.windows, w.id = id → w.isMinimized = false)
    (h : Inv s) : Inv (dragStart s id) := by
  cases hfind : findWin s id with
  | none =>
    rw [dragStart_not_found hfind]
    exact h
  | some w =>
    by_cases ha : s.activeWindowId = some id
    · rw [dragStart_active hfind ha]
      exact h
    · rw [dragStart_focus hfind ha]
      exact inv_focusWindow_some hguard h.1

theorem inv_dragMove {s : OSState} (id : String) (nx ny px py : Int) (h : Inv s) :
    Inv (dragMove s id nx ny px py) := by
  unfold dragMove
  cases hfind : findWin s id with
  | none => exact h
  | some w =>
    dsimp only
    have h1 : Inv { s with windows := updateWin s.windows id (fun v => { v with style := { v.style with left := max 0 (min nx (s.containerW - w.style.width)), top := max s.menuBarH (min ny (s.containerH - w.style.height - (if s.isDockVisible then s.dockOffsetH + 10 else 0))) } }) } :=
      inv_styleOnlyUpdate id _ (fun v => ⟨_, v.isSnapping, rfl⟩) h
    split
    · exact inv_setSnapOnActive _ h1
    · split
      · exact inv_setSnapOnActive _ h1
      · split
        · exact inv_setSnapOnActive _ h1
        · exact inv_styleOnlyUpdate id _ (fun v => ⟨v.style, none, rfl⟩) h1

theorem inv_dragEnd {s : OSState} (id : String) (h : Inv s) : Inv (dragEnd s id) := by
  cases hfind : findWin s id with
  | none =>
    rw [dragEnd_not_found hfind]
    exact h
  | some w =>
    cases hs : w.isSnapping.isSome with
    | false =>
      rw [dragEnd_plain hfind hs]
      exact h
    | true =>
      rw [dragEnd_snap hfind hs]
      exact inv_applySnap id h

/-! Reduction and preservation for createWindow and openApp. -/

theorem mapSet_overwrite {l : List WRec} {id : String} {w : WRec}
    (h : l.any (fun v => v.id == id) = true) :
    mapSet l id w = updateWin l id (fun _ => w) := by
  unfold mapSet updateWin
  rw [if_pos h]

theorem mapSet_append {l : List WRec} {id : String} {w : WRec}
    (h : l.any (fun v => v.id == id) = false) :
    mapSet l id w = l ++ [w] := by
  unfold mapSet
  rw [h]
  simp

/-- The record inserted by the fresh-creation branch of createWindow. -/
theorem createWindow_rejected {s : OSState} {opts : CreateOpts} {now : Nat} {px py : Int}
    (hdef : APP_DEFINITIONS.find? (fun d => d.id == opts.baseAppId) = none)
    (hspec : opts.baseAppId ∉ specialCaseIds) :
    createWindow s opts now px py = s := by
  unfold createWindow
  dsimp only
  rw [if_pos ⟨hdef, hspec⟩]

theorem createWindow_dedup {s : OSState} {opts : CreateOpts} {now : Nat} {px py : Int} {ex : WRec}
    (hnotrej : ¬(APP_DEFINITIONS.find? (fun d => d.id == opts.baseAppId) = none ∧
      opts.baseAppId ∉ specialCaseIds))
    (hcond : allowsMultiple opts.baseAppId = false ∧
      s.windows.any (fun w => w.baseAppId == opts.baseAppId && w.isOpen) = true)
    (hfind : s.windows.find? (fun w => w.baseAppId == opts.baseAppId && w.isOpen) = some ex) :
    createWindow s opts now px py
      = focusWindow (if ex.isMinimized then applyRestoreMin s ex.id else s) (some ex.id) := by
  unfold createWindow
  dsimp only
  rw [if_neg hnotrej, if_pos hcond, hfind]

theorem createWindow_fresh {s : OSState} {opts : CreateOpts} {now : Nat} {px py : Int}
    (hnotrej : ¬(APP_DEFINITIONS.find? (fun d => d.id == opts.baseAppId) = none ∧
      opts.baseAppId ∉ specialCaseIds))
    (hncond : ¬(allowsMultiple opts.baseAppId = false ∧
      s.windows.any (fun w => w.baseAppId == opts.baseAppId && w.isOpen) = true)) :
    createWindow s opts now px py
      = focusWindow
          { s with
            windows := mapSet s.windows (opts.baseAppId ++ "-" ++ toString now)
              { id := opts.baseAppId ++ "-" ++ toString now, baseAppId := opts.baseAppId,
                isMinimized := false, isOpen := true, zIndex := s.nextZIndex,
                isMaximized := false, isSnapping := none, originalPosition := none,
                style :=
                  { top := opts.y.getD py, left := opts.x.getD px,
                    width := (opts.width.orElse (fun _ => ((APP_DEFINITIONS.find? (fun d => d.id == opts.baseAppId)).bind (fun d => d.defaultWidth)))).getD 350,
                    height := (opts.height.orElse (fun _ => ((APP_DEFINITIONS.find? (fun d => d.id == opts.baseAppId)).bind (fun d => d.defaultHeight)))).getD 450 } },
            nextZIndex := s.nextZIndex + 1 }
          (some (opts.baseAppId ++ "-" ++ toString now)) := by
  unfold createWindow
  dsimp only
  rw [if_neg hnotrej, if_neg hncond]

theorem openApp_no_def {s : OSState} {appId : String} {now : Nat} {px py : Int}
    (h : APP_DEFINITIONS.find? (fun d => d.id == appId) = none) :
    openApp s appId now px py = s := by
  unfold openApp
  rw [h]

theorem openApp_not_launchable {s : OSState} {appId : String} {now : Nat} {px py : Int}
    {d : AppDef} (h : APP_DEFINITIONS.find? (fun d => d.id == appId) = some d)
    (hl : d.isLaunchable = false) :
    openApp s appId now px py = s := by
  unfold openApp
  rw [h]
  dsimp only
  rw [if_pos hl]

theorem openApp_dedup {s : OSState} {appId : String} {now : Nat} {px py : Int}
    {d : AppDef} {ex : WRec}
    (h : APP_DEFINITIONS.find? (fun d => d.id == appId) = some d)
    (hl : ¬(d.isLaunchable = false))
    (hcond : d.allowMultipleInstances = false ∧
      s.windows.any (fun w => w.baseAppId == appId && w.isOpen) = true)
    (hfind : s.windows.find? (fun w => w.baseAppId == appId && w.isOpen) = some ex) :
    openApp s appId now px py = restoreOpen s ex.id := by
  unfold openApp
  rw [h]
  dsimp only
  rw [if_neg hl, if_pos hcond, hfind]

theorem openApp_create {s : OSState} {appId : String} {now : Nat} {px py : Int} {d : AppDef}
    (h : APP_DEFINITIONS.find? (fun d => d.id == appId) = some d)
    (hl : ¬(d.isLaunchable = false))
    (hncond : ¬(d.allowMultipleInstances = false ∧
      s.windows.any (fun w => w.baseAppId == appId && w.isOpen) = true)) :
    openApp s appId now px py
      = createWindow s
          { baseAppId := appId, x := some px, y := some py,
            width := d.defaultWidth, height := d.defaultHeight } now px py := by
  unfold openApp
  rw [h]
  dsimp only
  rw [if_neg hl, if_neg hncond]

theorem focus_preserves_unmin {s : OSState} {oid : Option String} {j : String}
    (hg : ∀ v ∈ s.windows, v.id = j → v.isMinimized = false) :
    ∀ v ∈ (focusWindow s oid).windows, v.id = j → v.isMinimized = false := by
  cases oid with
  | none =>
    rw [focusWindow_none]
    exact hg
  | some id =>
    cases hfind : findWin s id with
    | none =>
      rw [focusWindow_not_found hfind]
      exact hg
    | some w =>
      by_cases hc : s.activeWindowId = some id ∧ w.zIndex = s.nextZIndex - 1 ∧
          w.isMinimized = false
      · rw [focusWindow_early hfind hc]
        exact hg
      · rw [focusWindow_bump hfind hc]
        intro v hv hvj
        obtain ⟨u, hu, rfl⟩ := mem_updateWin hv
        by_cases hui : u.id = id
        · simp only [if_pos hui] at hvj ⊢
          exact hg u hu hvj
        · simp only [if_neg hui] at hvj ⊢
          exact hg u hu hvj

theorem applyRestoreMin_unmin {s : OSState} {id : String} :
    ∀ v ∈ (applyRestoreMin s id).windows, v.id = id → v.isMinimized = false := by
  unfold applyRestoreMin
  exact focus_preserves_unmin restoreMin_unminimized

theorem inv_createWindow {s : OSState} (opts : CreateOpts) (now : Nat) (px py : Int)
    (h : Inv s) : Inv (createWindow s opts now px py) := by
  by_cases hrej : APP_DEFINITIONS.find? (fun d => d.id == opts.baseAppId) = none ∧
      opts.baseAppId ∉ specialCaseIds
  · rw [createWindow_rejected hrej.1 hrej.2]
    exact h
  · by_cases hded : allowsMultiple opts.baseAppId = false ∧
        s.windows.any (fun w => w.baseAppId == opts.baseAppId && w.isOpen) = true
    · obtain ⟨ex, hex⟩ : ∃ ex, s.windows.find?
          (fun w => w.baseAppId == opts.baseAppId && w.isOpen) = some ex := by
        obtain ⟨x, hx, hpx⟩ := List.any_eq_true.1 hded.2
        have : (s.windows.find? (fun w => w.baseAppId == opts.baseAppId && w.isOpen)).isSome := by
          rw [List.find?_isSome]
          exact ⟨x, hx, hpx⟩
        exact Option.isSome_iff_exists.1 this
      rw [createWindow_dedup hrej hded hex]
      have hexmem : ex ∈ s.windows := List.mem_of_find?_eq_some hex
      by_cases hm : ex.isMinimized = true
      · rw [if_pos hm]
        exact inv_focusWindow_some applyRestoreMin_unmin (inv_applyRestoreMin ex.id h.1).1
      · rw [if_neg hm]
        refine inv_focusWindow_some ?_ h.1
        intro v hv hvi
        have hveq : v = ex := List.inj_on_of_nodup_map h.1.nodupId hv hexmem (by rw [hvi])
        rw [hveq]
        simpa using hm
    · rw [createWindow_fresh hrej hded]
      set wid := opts.baseAppId ++ "-" ++ toString now with hwid
      set newWin : WRec :=
        { id := wid, baseAppId := opts.baseAppId,
          isMinimized := false, isOpen := true, zIndex := s.nextZIndex,
          isMaximized := false, isSnapping := none, originalPosition := none,
          style :=
            { top := opts.y.getD py, left := opts.x.getD px,
              width := (opts.width.orElse (fun _ => ((APP_DEFINITIONS.find? (fun d => d.id == opts.baseAppId)).bind (fun d => d.defaultWidth)))).getD 350,
              height := (opts.height.orElse (fun _ => ((APP_DEFINITIONS.find? (fun d => d.id == opts.baseAppId)).bind (fun d => d.defaultHeight)))).getD 450 } }
        with hnw
      have hnwid : newWin.id = wid := rfl
      have hcount0 : allowsMultiple opts.baseAppId = false →
          s.windows.countP (openOf opts.baseAppId) = 0 := by
        intro hallow
        rw [List.countP_eq_zero]
        intro v hv hpv
        refine hded ⟨hallow, List.any_eq_true.2 ⟨v, hv, ?_⟩⟩
        simpa [openOf] using hpv
      cases hany : s.windows.any (fun v => v.id == wid) with
      | true =>
        rw [mapSet_overwrite hany]
        refine inv_focusWindow_some ?_ ?_
        · intro v hv hvi
          obtain ⟨u, hu, rfl⟩ := mem_updateWin hv
          by_cases hui : u.id = wid
          · simp [hui, hnw]
          · simp only [if_neg hui] at hvi
            exact absurd hvi hui
        · constructor
          · rw [show (updateWin s.windows wid (fun _ => newWin)).map (fun w => w.id)
                = s.windows.map (fun w => w.id) from ?_]
            · exact h.1.nodupId
            · unfold updateWin
              rw [List.map_map]
              refine List.map_congr_left (fun v hv => ?_)
              by_cases hvi : v.id = wid <;> simp [hvi, hnwid]
          · intro v hv
            obtain ⟨u, hu, rfl⟩ := mem_updateWin hv
            by_cases hui : u.id = wid
            · simp only [if_pos hui]
              exact Nat.lt_succ_self _
            · simp only [if_neg hui]
              exact Nat.lt_succ_of_lt (h.1.zLt u hu)
          · exact nodup_z_updateWin s.windows wid (fun _ => newWin) s.nextZIndex
              (fun _ => rfl) h.1.nodupId h.1.zLt h.1.nodupZ
          · intro k hk
            by_cases hkb : k = opts.baseAppId
            · subst hkb
              exact countP_overwrite s.windows wid newWin (openOf opts.baseAppId)
                h.1.nodupId (hcount0 hk)
            · rw [updateWin_eq_map, List.countP_map]
              refine le_trans (List.countP_mono_left (fun v hv hp => ?_)) (h.1.singleInst k hk)
              by_cases hvi : v.id = wid
              · exfalso
                simp only [Function.comp_apply, if_pos hvi] at hp
                rw [hnw] at hp
                simp [openOf] at hp
                exact hkb hp.symm
              · simpa only [Function.comp_apply, if_neg hvi] using hp
          · intro v hv
            obtain ⟨u, hu, rfl⟩ := mem_updateWin hv
            by_cases hui : u.id = wid
            · simp [hui, hnw, mutexP]
            · simp only [if_neg hui]
              exact h.1.mutex u hu
          · intro v hv
            obtain ⟨u, hu, rfl⟩ := mem_updateWin hv
            by_cases hui : u.id = wid
            · simp [hui, hnw, savedP]
            · simp only [if_neg hui]
              exact h.1.savedGeom u hu
      | false =>
        rw [mapSet_append hany]
        have hfresh : ∀ v ∈ s.windows, ¬(v.id = wid) := by
          intro v hv hvi
          have := List.any_eq_false.1 hany v hv
          simp [hvi] at this
        refine inv_focusWindow_some ?_ ?_
        · intro v hv hvi
          rcases List.mem_append.1 hv with hvl | hvr
          · exact absurd hvi (hfresh v hvl)
          · rw [List.mem_singleton.1 hvr]
        · constructor
          · rw [List.map_append]
            rw [List.nodup_append]
            refine ⟨h.1.nodupId, by simp, ?_⟩
            intro x hx hx2
            simp only [List.map_cons, List.map_nil, List.mem_singleton] at hx2
            obtain ⟨v, hv, rfl⟩ := List.mem_map.1 hx
            exact hfresh v hv (by rw [hx2])
          · intro v hv
            rcases List.mem_append.1 hv with hvl | hvr
            · exact Nat.lt_succ_of_lt (h.1.zLt v hvl)
            · rw [List.mem_singleton.1 hvr]
              exact Nat.lt_succ_self _
          · rw [List.map_append]
            rw [List.nodup_append]
            refine ⟨h.1.nodupZ, by simp, ?_⟩
            intro x hx hx2
            simp only [List.map_cons, List.map_nil, List.mem_singleton] at hx2
            obtain ⟨v, hv, rfl⟩ := List.mem_map.1 hx
            have hzv := h.1.zLt v hv
            rw [hx2] at hzv
            simp [hnw] at hzv
          · intro k hk
            rw [List.countP_append]
            by_cases hkb : k = opts.baseAppId
            · subst hkb
              have h0 := hcount0 hk
              rw [h0]
              simp only [List.countP_cons, List.countP_nil]
              split <;> omega
            · have hno : openOf k newWin = false := by
                rw [hnw]
                simp [openOf, Ne.symm hkb]
              simp only [List.countP_cons, List.countP_nil, hno, Bool.false_eq_true, if_false]
              have := h.1.singleInst k hk
              omega
          · intro v hv
            rcases List.mem_append.1 hv with hvl | hvr
            · exact h.1.mutex v hvl
            · rw [List.mem_singleton.1 hvr]
              simp [hnw, mutexP]
          · intro v hv
            rcases List.mem_append.1 hv with hvl | hvr
            · exact h.1.savedGeom v hvl
            · rw [List.mem_singleton.1 hvr]
              simp [hnw, savedP]

theorem inv_restoreOpen {s : OSState} (id : String) (h : Inv s) : Inv (restoreOpen s id) := by
  cases hfind : findWin s id with
  | none =>
    rw [restoreOpen_not_found hfind]
    exact h
  | some w =>
    by_cases hm : w.isMinimized = true
    · rw [restoreOpen_minimized hfind hm]
      exact inv_applyRestoreMin id h.1
    · have hm' : w.isMinimized = false := by simpa using hm
      rw [restoreOpen_plain hfind hm']
      refine inv_focusWindow_some ?_ h.1
      intro v hv hvi
      have hwmem : w ∈ s.windows := by
        have h2 := hfind
        unfold findWin at h2
        exact List.mem_of_find?_eq_some h2
      have hwid : w.id = id := by
        have h2 := hfind
        unfold findWin at h2
        have h3 := List.find?_some h2
        simpa using h3
      have hveq : v = w :=
        List.inj_on_of_nodup_map h.1.nodupId hv hwmem (by rw [hvi, hwid])
      rw [hveq]
      exact hm'

theorem inv_openApp {s : OSState} (appId : String) (now : Nat) (px py : Int)
    (h : Inv s) : Inv (openApp s appId now px py) := by
  cases hd : APP_DEFINITIONS.find? (fun d => d.id == appId) with
  | none =>
    rw [openApp_no_def hd]
    exact h
  | some d =>
    by_cases hl : d.isLaunchable = false
    · rw [openApp_not_launchable hd hl]
      exact h
    · by_cases hcond : d.allowMultipleInstances = false ∧
          s.windows.any (fun w => w.baseAppId == appId && w.isOpen) = true
      · obtain ⟨ex, hex⟩ : ∃ ex, s.windows.find?
            (fun w => w.baseAppId == appId && w.isOpen) = some ex := by
          obtain ⟨x, hx, hpx⟩ := List.any_eq_true.1 hcond.2
          have hs : (s.windows.find? (fun w => w.baseAppId == appId && w.isOpen)).isSome := by
            rw [List.find?_isSome]
            exact ⟨x, hx, hpx⟩
          exact Option.isSome_iff_exists.1 hs
        rw [openApp_dedup hd hl hcond hex]
        exact inv_restoreOpen ex.id h
      · rw [openApp_create hd hl hcond]
        exact inv_createWindow _ now px py h

theorem dockRefreshRec_id (dv : Bool) (cw ch : Int) (w : WRec) :
    (dockRefreshRec dv cw ch w).id = w.id := by
  unfold dockRefreshRec
  dsimp only
  repeat' split
  all_goals simp [snapRec_id, toggleMaxRec_id]

theorem dockRefreshRec_z (dv : Bool) (cw ch : Int) (w : WRec) :
    (dockRefreshRec dv cw ch w).zIndex = w.zIndex := by
  unfold dockRefreshRec
  dsimp only
  repeat' split
  all_goals simp [snapRec_z, toggleMaxRec_z]

theorem dockRefreshRec_base (dv : Bool) (cw ch : Int) (w : WRec) :
    (dockRefreshRec dv cw ch w).baseAppId = w.baseAppId := by
  unfold dockRefreshRec
  dsimp only
  repeat' split
  all_goals simp [snapRec_base, toggleMaxRec_base]

theorem dockRefreshRec_open (dv : Bool) (cw ch : Int) (w : WRec) :
    (dockRefreshRec dv cw ch w).isOpen = w.isOpen := by
  unfold dockRefreshRec
  dsimp only
  repeat' split
  all_goals simp [snapRec_open, toggleMaxRec_open]

theorem dockRefreshRec_min (dv : Bool) (cw ch : Int) (w : WRec) :
    (dockRefreshRec dv cw ch w).isMinimized = w.isMinimized := by
  unfold dockRefreshRec
  dsimp only
  repeat' split
  all_goals simp [snapRec_min, toggleMaxRec_min]

theorem toggleMaxRec_twice_of_max {w : WRec} (hmax : w.isMaximized = true) :
    toggleMaxRec (toggleMaxRec w)
      = { w with style := w.originalPosition.getD w.style, isMaximized := true,
                 originalPosition := some (w.originalPosition.getD w.style) } := by
  unfold toggleMaxRec
  rw [if_pos hmax]
  dsimp only
  rw [if_neg (by simp)]

theorem dockRefreshRec_mutex (dv : Bool) (cw ch : Int) (w : WRec) (hm : mutexP w) :
    mutexP (dockRefreshRec dv cw ch w) := by
  unfold dockRefreshRec
  dsimp only
  split
  · by_cases hmax : w.isMaximized = true
    · rw [if_pos hmax]
      have hw1 : mutexP (toggleMaxRec (toggleMaxRec w)) := by
        rw [toggleMaxRec_twice_of_max hmax]
        intro hc
        have hminf : w.isMinimized = false := by
          by_cases hmin : w.isMinimized = true
          · exact absurd ⟨hmin, hmax⟩ hm
          · simpa using hmin
        exact absurd hc.1 (by simp [hminf])
      split
      · exact snapRec_mutex _ _ _ _ hw1
      · exact hw1
    · rw [if_neg hmax]
      split
      · exact snapRec_mutex _ _ _ _ hm
      · exact hm
  · exact hm

theorem dockRefreshRec_saved (dv : Bool) (cw ch : Int) (w : WRec) (hs : savedP w) :
    savedP (dockRefreshRec dv cw ch w) := by
  unfold dockRefreshRec
  dsimp only
  split
  · by_cases hmax : w.isMaximized = true
    · rw [if_pos hmax]
      have hw1 : savedP (toggleMaxRec (toggleMaxRec w)) := by
        rw [toggleMaxRec_twice_of_max hmax]
        intro hc
        rfl
      split
      · exact snapRec_saved _ _ _ _ hw1
      · exact hw1
    · rw [if_neg hmax]
      split
      · exact snapRec_saved _ _ _ _ hs
      · exact hs
  · exact hs

theorem inv_toggleDockVisibility {s : OSState} (h : Inv s) : Inv (toggleDockVisibility s) := by
  unfold toggleDockVisibility
  constructor
  · refine preinv_map (dockRefreshRec (¬s.isDockVisible) s.containerW s.containerH)
      rfl rfl ?_ ?_ ?_ ?_ ?_ ?_ h.1
    · intro w hw
      exact dockRefreshRec_id _ _ _ w
    · intro w hw
      exact dockRefreshRec_z _ _ _ w
    · intro w hw
      exact dockRefreshRec_base _ _ _ w
    · intro w hw hop
      rw [dockRefreshRec_open] at hop
      exact hop
    · intro w hw
      exact dockRefreshRec_mutex _ _ _ w
    · intro w hw
      exact dockRefreshRec_saved _ _ _ w
  · refine activeinv_map (dockRefreshRec (¬s.isDockVisible) s.containerW s.containerH)
      rfl rfl rfl ?_ ?_ ?_ h.2
    · intro w hw
      exact dockRefreshRec_id _ _ _ w
    · intro w hw
      exact dockRefreshRec_z _ _ _ w
    · intro w hw hmin
      rw [dockRefreshRec_min]
      exact hmin

theorem inv_step {s s' : OSState} (h : Inv s) (st : Step s s') : Inv s' := by
  cases st with
  | stepOpenApp appId now px py => exact inv_openApp appId now px py h
  | stepCreate opts now px py => exact inv_createWindow opts now px py h
  | stepFocusClick id hg =>
    exact inv_focusWindow_some (fun w hw hwid => hg w hw hwid) h.1
  | stepCloseMark id => exact inv_closeWindow id h
  | stepCloseTimeout id hp => exact inv_closeWindowTimeout id h
  | stepMinimize id => exact inv_minimizeWindow id h
  | stepToggleMax id hg => exact inv_toggleMaximizeWindow hg h
  | stepDragStart id hg => exact inv_dragStart hg h
  | stepDragMove id nx ny px py => exact inv_dragMove id nx ny px py h
  | stepDragEnd id => exact inv_dragEnd id h
  | stepResizeMove id nw nh => exact inv_resizeMove id nw nh h
  | stepToggleDock => exact inv_toggleDockVisibility h

theorem inv_init (cw ch : Int) : Inv (initState cw ch) := by
  constructor
  · constructor
    · simp [initState]
    · intro w hw
      simp [initState] at hw
    · simp [initState]
    · intro k hk
      simp [initState]
    · intro w hw
      simp [initState] at hw
    · intro w hw
      simp [initState] at hw
  · intro id hid
    simp [initState] at hid

/-- Every reachable registry state satisfies the full invariant. -/
theorem inv_reachable {s : OSState} (h : Reachable s) : Inv s := by
  induction h with
  | init cw ch => exact inv_init cw ch
  | step hr hs ih => exact inv_step ih hs

/-! Helper lemmas describing the effect of focusWindow and updateWin on
lookups, id lists and counts, used to settle the functional claims. -/

theorem countP_updateWin_inv (l : List WRec) (id : String) (f : WRec → WRec) (p : WRec → Bool)
    (hp : ∀ v, p (f v) = p v) : (updateWin l id f).countP p = l.countP p := by
  rw [updateWin_eq_map, List.countP_map]
  refine List.countP_congr (fun v hv => ?_)
  simp only [Function.comp_apply]
  by_cases hvi : v.id = id <;> simp [hvi, hp]

theorem focusWindow_ids (s : OSState) (oid : Option String) :
    (focusWindow s oid).windows.map (fun w => w.id) = s.windows.map (fun w => w.id) := by
  cases oid with
  | none => rw [focusWindow_none]
  | some id =>
    cases hfind : findWin s id with
    | none => rw [focusWindow_not_found hfind]
    | some w =>
      by_cases hc : s.activeWindowId = some id ∧ w.zIndex = s.nextZIndex - 1 ∧
          w.isMinimized = false
      · rw [focusWindow_early hfind hc]
      · rw [focusWindow_bump hfind hc]
        exact updateWin_map_field _ _ _ _ (fun v _ => rfl)

theorem focusWindow_countP (s : OSState) (oid : Option String) (p : WRec → Bool)
    (hp : ∀ v n, p { v with zIndex := n } = p v) :
    (focusWindow s oid).windows.countP p = s.windows.countP p := by
  cases oid with
  | none => rw [focusWindow_none]
  | some id =>
    cases hfind : findWin s id with
    | none => rw [focusWindow_not_found hfind]
    | some w =>
      by_cases hc : s.activeWindowId = some id ∧ w.zIndex = s.nextZIndex - 1 ∧
          w.isMinimized = false
      · rw [focusWindow_early hfind hc]
      · rw [focusWindow_bump hfind hc]
        exact countP_updateWin_inv _ _ _ p (fun v => hp v _)

theorem focusWindow_active {s : OSState} {id : String} {w : WRec}
    (hfind : findWin s id = some w) :
    (focusWindow s (some id)).activeWindowId = some id := by
  by_cases hc : s.activeWindowId = some id ∧ w.zIndex = s.nextZIndex - 1 ∧
      w.isMinimized = false
  · rw [focusWindow_early hfind hc]
    exact hc.1
  · rw [focusWindow_bump hfind hc]

theorem findWin_id {s : OSState} {id : String} {w : WRec} (hfind : findWin s id = some w) :
    w.id = id := by
  unfold findWin at hfind
  have := List.find?_some hfind
  simpa using this

theorem findWin_mem {s : OSState} {id : String} {w : WRec} (hfind : findWin s id = some w) :
    w ∈ s.windows := by
  unfold findWin at hfind
  exact List.mem_of_find?_eq_some hfind

theorem findWin_update {s t : OSState} {id : String} {w : WRec} (f : WRec → WRec)
    (hf : ∀ v, (f v).id = v.id)
    (hw : t.windows = updateWin s.windows id f)
    (hfind : findWin s id = some w) :
    findWin t id = some (f w) := by
  unfold findWin at hfind ⊢
  rw [hw, find?_updateWin _ _ _ _ hf, hfind]
  simp only [Option.map_some']
  rw [if_pos (findWin_id hfind)]

theorem findWin_update_other {s t : OSState} {id aid : String} {w : WRec} (f : WRec → WRec)
    (hf : ∀ v, (f v).id = v.id)
    (hw : t.windows = updateWin s.windows aid f)
    (hne : ¬(id = aid))
    (hfind : findWin s id = some w) :
    findWin t id = some w := by
  unfold findWin at hfind ⊢
  rw [hw, find?_updateWin _ _ _ _ hf, hfind]
  simp only [Option.map_some']
  rw [if_neg (by rw [findWin_id hfind]; exact hne)]

theorem focusWindow_find {s : OSState} {id : String} {w : WRec}
    (hfind : findWin s id = some w) :
    ∃ w', findWin (focusWindow s (some id)) id = some w' ∧
      w'.isOpen = w.isOpen ∧ w'.isMinimized = w.isMinimized ∧
      w'.baseAppId = w.baseAppId ∧ w'.style = w.style ∧
      w'.originalPosition = w.originalPosition := by
  by_cases hc : s.activeWindowId = some id ∧ w.zIndex = s.nextZIndex - 1 ∧
      w.isMinimized = false
  · rw [focusWindow_early hfind hc]
    exact ⟨w, hfind, rfl, rfl, rfl, rfl, rfl⟩
  · rw [focusWindow_bump hfind hc]
    refine ⟨{ w with zIndex := s.nextZIndex }, ?_, rfl, rfl, rfl, rfl, rfl⟩
    exact findWin_update (f := fun v => { v with zIndex := s.nextZIndex }) (fun v => rfl) rfl hfind

theorem updateWin_append_fresh {l : List WRec} {id : String} {x : WRec} (f : WRec → WRec)
    (hfresh : ∀ v ∈ l, ¬(v.id = id)) :
    updateWin (l ++ [x]) id f = l ++ [if x.id = id then f x else x] := by
  unfold updateWin
  have h1 : l.map (fun v => if v.id = id then f v else v) = l.map (fun v => v) :=
    List.map_congr_left (fun v hv => by rw [if_neg (hfresh v hv)])
  rw [List.map_append, h1]
  simp

/-! The claims. -/

/-- C1: at every reachable state of the window registry, activeWindowId names
at most one record (any two records sharing that id are the same record), the
focused window is not minimized and its zIndex is the maximum among all open
windows, and no two distinct open windows share a zIndex value. -/
theorem C1_focus_and_zorder {s : OSState} (h : Reachable s) :
    (∀ v ∈ s.windows, ∀ u ∈ s.windows, v.id = u.id → v = u) ∧
    (∀ id, s.activeWindowId = some id →
      ∃ w ∈ s.windows, w.id = id ∧ w.isMinimized = false ∧
        ∀ u ∈ s.windows, u.isOpen = true → u.zIndex ≤ w.zIndex) ∧
    (∀ v ∈ s.windows, ∀ u ∈ s.windows, v.isOpen = true → u.isOpen = true →
      v ≠ u → v.zIndex ≠ u.zIndex) := by
  obtain ⟨hpre, hact⟩ := inv_reachable h
  refine ⟨?_, ?_, ?_⟩
  · intro v hv u hu he
    exact List.inj_on_of_nodup_map hpre.nodupId hv hu he
  · intro id hid
    obtain ⟨w, hw, hwid, hwmin, hwz⟩ := hact id hid
    refine ⟨w, hw, hwid, hwmin, ?_⟩
    intro u hu huo
    have h1 := hpre.zLt u hu
    have h2 := hpre.zLt w hw
    omega
  · intro v hv u hu hvo huo hne he
    exact hne (List.inj_on_of_nodup_map hpre.nodupZ hv hu he)

/-- Witness for C1 at the concrete reachable state produced by booting the
shell and opening Settings once. -/
theorem C1_focus_and_zorder_witness :
    (∀ v ∈ (openApp (initState 1024 768) "Settings" 1 40 40).windows,
      ∀ u ∈ (openApp (initState 1024 768) "Settings" 1 40 40).windows, v.id = u.id → v = u) ∧
    (∀ id, (openApp (initState 1024 768) "Settings" 1 40 40).activeWindowId = some id →
      ∃ w ∈ (openApp (initState 1024 768) "Settings" 1 40 40).windows,
        w.id = id ∧ w.isMinimized = false ∧
        ∀ u ∈ (openApp (initState 1024 768) "Settings" 1 40 40).windows,
          u.isOpen = true → u.zIndex ≤ w.zIndex) ∧
    (∀ v ∈ (openApp (initState 1024 768) "Settings" 1 40 40).windows,
      ∀ u ∈ (openApp (initState 1024 768) "Settings" 1 40 40).windows,
        v.isOpen = true → u.isOpen = true → v ≠ u → v.zIndex ≠ u.zIndex) :=
  C1_focus_and_zorder
    (Reachable.step (Reachable.init 1024 768)
      (Step.stepOpenApp (initState 1024 768) "Settings" 1 40 40))

/-- C3 counterexample: the claim says a single-instance kind never has two
records other than Closed (removed) ones, even while one is Closing.  On the
code, opening Settings, closing it (grace period running, record still in the
registry with isOpen = false) and opening Settings again leaves TWO Settings
records in the registry: the Closing one and a fresh Open one, because the
openApp dedup filter only looks at isOpen windows. -/
theorem C3_counterexample :
    ((openApp (closeWindow (openApp (initState 1024 768) "Settings" 1 10 10) "Settings-1")
      "Settings" 2 10 10).windows.map (fun w => (w.baseAppId, w.isOpen)))
      = [("Settings", false), ("Settings", true)] := by
  decide

/-- C3 amended: for every single-instance app kind, at most one record with
isOpen = true exists at every reachable state; a Closing record (present but
isOpen = false) of the same kind may coexist with a fresh instance during its
grace period. -/
theorem C3_single_instance_open {s : OSState} (h : Reachable s) :
    ∀ k : String, allowsMultiple k = false → s.windows.countP (openOf k) ≤ 1 :=
  fun k hk => (inv_reachable h).1.singleInst k hk

/-- Witness for the amended C3 at the concrete reachable state of the
counterexample trace. -/
theorem C3_single_instance_open_witness :
    (openApp (closeWindow (openApp (initState 1024 768) "Settings" 1 10 10) "Settings-1")
      "Settings" 2 10 10).windows.countP (openOf "Settings") ≤ 1 :=
  C3_single_instance_open
    (Reachable.step
      (Reachable.step
        (Reachable.step (Reachable.init 1024 768)
          (Step.stepOpenApp (initState 1024 768) "Settings" 1 10 10))
        (Step.stepCloseMark _ "Settings-1"))
      (Step.stepOpenApp _ "Settings" 2 10 10))
    "Settings" (by decide)

/-- C4: toggling maximize twice on a window that is Open (not maximized, not
minimized, no snap candidate) restores exactly the style geometry present
before the first toggle. -/
theorem C4_maximize_roundtrip {s : OSState} {id : String} {w : WRec}
    (h : findWin s id = some w) (hmax : w.isMaximized = false)
    (hmin : w.isMinimized = false) (hsnap : w.isSnapping = none) :
    (findWin (toggleMaximizeWindow (toggleMaximizeWindow s id) id) id).map (fun v => v.style)
      = some w.style := by
  rw [toggleMaximizeWindow_found h]
  have h2 : findWin { s with windows := updateWin s.windows id toggleMaxRec } id
      = some (toggleMaxRec w) :=
    findWin_update toggleMaxRec toggleMaxRec_id rfl h
  rw [toggleMaximizeWindow_found h2]
  have h3 : findWin { s with
      windows := updateWin (updateWin s.windows id toggleMaxRec) id toggleMaxRec } id
      = some (toggleMaxRec (toggleMaxRec w)) :=
    findWin_update toggleMaxRec toggleMaxRec_id rfl h2
  rw [h3, Option.map_some']
  simp [toggleMaxRec, hmax]

/-- Witness for C4 on the freshly opened Settings window. -/
theorem C4_maximize_roundtrip_witness :
    (findWin (toggleMaximizeWindow (toggleMaximizeWindow
        (openApp (initState 1024 768) "Settings" 1 40 40) "Settings-1") "Settings-1")
      "Settings-1").map (fun v => v.style)
      = some { top := 40, left := 40, width := 500, height := 480 } :=
  C4_maximize_roundtrip
    (w := { id := "Settings-1", baseAppId := "Settings", isMinimized := false, isOpen := true,
            zIndex := 101, isMaximized := false, isSnapping := none, originalPosition := none,
            style := { top := 40, left := 40, width := 500, height := 480 } })
    (by decide) rfl rfl rfl

/-- C5 counterexample: the claim says every Snapped window holds a
savedGeometry snapshot of its pre-snap geometry, snapshotted by ApplySnap.
On the code, dragging a fresh Settings window (geometry 100,100,500,480) to
the left edge and releasing commits the left snap rectangle (left = 2), yet
the record still has no originalPosition snapshot: applySnap never writes
one. -/
theorem C5_counterexample :
    ((findWin (dragEnd (dragMove (dragStart (openApp (initState 1024 768) "Settings" 1 100 100)
        "Settings-1") "Settings-1" 5 60 5 60) "Settings-1") "Settings-1").map
      (fun w => (w.originalPosition, w.style.left))) = some (none, 2) := by
  decide

/-- C5 amended: minimized or maximized records always hold a savedGeometry
snapshot at every reachable state, and the snapshot written on entering
Maximized or Minimized is exactly the pre-transition style; but ApplySnap
never writes a snapshot: snapRec leaves originalPosition unchanged, so a
window snapped from a fresh Open state has none. -/
theorem C5_saved_geometry :
    (∀ s : OSState, Reachable s → ∀ w ∈ s.windows,
        (w.isMinimized = true ∨ w.isMaximized = true) → w.originalPosition.isSome = true) ∧
    (∀ w : WRec, w.isMaximized = false → (toggleMaxRec w).originalPosition = some w.style) ∧
    (∀ w : WRec, (minimizeRec w).originalPosition = some w.style) ∧
    (∀ (dv : Bool) (cw ch : Int) (w : WRec),
        (snapRec dv cw ch w).originalPosition = w.originalPosition) := by
  refine ⟨?_, ?_, ?_, ?_⟩
  · intro s hs w hw hcase
    exact (inv_reachable hs).1.savedGeom w hw hcase
  · intro w hmax
    unfold toggleMaxRec
    rw [if_neg (by simp [hmax])]
  · intro w
    rfl
  · exact snapRec_orig

/-- Witness for C5 at the reachable state with a minimized Settings window
and at concrete records. -/
theorem C5_saved_geometry_witness :
    (∀ w ∈ (minimizeWindow (openApp (initState 1024 768) "Settings" 1 100 100)
        "Settings-1").windows,
      (w.isMinimized = true ∨ w.isMaximized = true) → w.originalPosition.isSome = true) ∧
    ((toggleMaxRec { id := "a", baseAppId := "b", isMinimized := false, isOpen := true, zIndex := 5, isMaximized := false, isSnapping := none, originalPosition := none, style := { top := 1, left := 2, width := 300, height := 200 } }).originalPosition
      = some { top := 1, left := 2, width := 300, height := 200 }) :=
  ⟨C5_saved_geometry.1 _
    (Reachable.step
      (Reachable.step (Reachable.init 1024 768)
        (Step.stepOpenApp (initState 1024 768) "Settings" 1 100 100))
      (Step.stepMinimize _ "Settings-1")),
   C5_saved_geometry.2.1 _ rfl⟩

/-- C7 counterexample: the claim says ToggleMaximize applied to a Minimized
window must not leave the record both minimized and maximized.  On the code,
toggleMaximizeWindow has no minimized guard: minimizing the Settings window
and then calling toggleMaximizeWindow on it leaves isMinimized = true and
isMaximized = true simultaneously. -/
theorem C7_counterexample :
    ((findWin (toggleMaximizeWindow (minimizeWindow
        (openApp (initState 1024 768) "Settings" 1 100 100) "Settings-1") "Settings-1")
      "Settings-1").map (fun w => (w.isMinimized, w.isMaximized))) = some (true, true) := by
  decide

/-- C7 amended: over the states reachable through the user-interface-level
operations (whose callers never toggle-maximize a minimized window, since its
element is hidden), no window is simultaneously minimized and maximized;
Minimize itself always clears the maximized flag.  The raw ToggleMaximize
operation applied directly to a minimized record does set both flags, as the
counterexample shows. -/
theorem C7_minimize_maximize_exclusive {s : OSState} (h : Reachable s) :
    ∀ w ∈ s.windows, ¬(w.isMinimized = true ∧ w.isMaximized = true) :=
  (inv_reachable h).1.mutex

/-- Witness for the amended C7 at the reachable state with a minimized
Settings window, instantiated at its single record. -/
theorem C7_minimize_maximize_exclusive_witness :
    ¬(({ id := "Settings-1", baseAppId := "Settings", isMinimized := true, isOpen := true, zIndex := 101, isMaximized := false, isSnapping := none, originalPosition := some { top := 100, left := 100, width := 500, height := 480 }, style := { top := 100, left := 100, width := 500, height := 480 } } : WRec).isMinimized = true ∧
      ({ id := "Settings-1", baseAppId := "Settings", isMinimized := true, isOpen := true, zIndex := 101, isMaximized := false, isSnapping := none, originalPosition := some { top := 100, left := 100, width := 500, height := 480 }, style := { top := 100, left := 100, width := 500, height := 480 } } : WRec).isMaximized = true) :=
  C7_minimize_maximize_exclusive
    (Reachable.step
      (Reachable.step (Reachable.init 1024 768)
        (Step.stepOpenApp (initState 1024 768) "Settings" 1 100 100))
      (Step.stepMinimize _ "Settings-1"))
    _ (by decide)

/-- C9: the window id is baseAppId plus the creation timestamp, so two
createWindow calls for the same kind in the same millisecond produce the
SAME id and the second Map.set overwrites the first record: after opening
Notepad (a multi-instance kind, so no dedup applies) twice at timestamp 7,
the registry holds a single record, not two distinctly-identified ones. -/
theorem C9_id_collision :
    ((openApp (openApp (initState 1024 768) "Notepad" 7 10 10) "Notepad" 7 200 200).windows.map
      (fun w => w.id)) = ["Notepad-7"] := by
  decide

/-- C10 counterexample: the claim says Restore on any present record with
isOpen = false launches a brand-new instance via openApp and does not focus
the record.  But restoreWindow checks isMinimized first: closing the
Settings window and minimizing it during the grace period (record present,
isOpen = false, isMinimized = true) makes restoreWindow take the minimized
branch, focusing the closing record and creating nothing. -/
theorem C10_counterexample :
    ((findWin (minimizeWindow (closeWindow
        (openApp (initState 1024 768) "Settings" 3 10 10) "Settings-3") "Settings-3")
      "Settings-3").map (fun w => (w.isOpen, w.isMinimized)) = some (false, true)) ∧
    ((restoreWindow (minimizeWindow (closeWindow
        (openApp (initState 1024 768) "Settings" 3 10 10) "Settings-3") "Settings-3")
      "Settings-3" 9 10 10).activeWindowId = some "Settings-3") ∧
    ((restoreWindow (minimizeWindow (closeWindow
        (openApp (initState 1024 768) "Settings" 3 10 10) "Settings-3") "Settings-3")
      "Settings-3" 9 10 10).windows.map (fun w => w.id) = ["Settings-3"]) := by
  refine ⟨?_, ?_, ?_⟩ <;> decide

/-- C10 amended: Restore on a present record with isOpen = false that is NOT
flagged minimized is exactly a relaunch: restoreWindow delegates to openApp
on the same app kind (so the record itself is not focused and the call is
not a no-op); a closing record still flagged minimized instead takes the
minimized-restore branch. -/
theorem C10_restore_closing_relaunches {s : OSState} {id : String} {w : WRec}
    {now : Nat} {px py : Int}
    (h : findWin s id = some w) (hmin : w.isMinimized = false) (hop : w.isOpen = false) :
    restoreWindow s id now px py = openApp s w.baseAppId now px py :=
  restoreWindow_closing h hmin hop

/-- Witness for the amended C10 on the concrete closing Settings record. -/
theorem C10_restore_closing_relaunches_witness :
    restoreWindow (closeWindow (openApp (initState 1024 768) "Settings" 3 10 10) "Settings-3")
        "Settings-3" 9 10 10
      = openApp (closeWindow (openApp (initState 1024 768) "Settings" 3 10 10) "Settings-3")
          "Settings" 9 10 10 :=
  C10_restore_closing_relaunches
    (w := { id := "Settings-3", baseAppId := "Settings", isMinimized := false, isOpen := false,
            zIndex := 101, isMaximized := false, isSnapping := none, originalPosition := none,
            style := { top := 10, left := 10, width := 500, height := 480 } })
    (by decide) rfl rfl

/-- C6 counterexample: the claim says a window in the Snapped state rejects
resize as a no-op.  On the code, applySnap clears the isSnapping candidate
when it commits, so the window occupying the left snap rectangle (width 508
here) passes the resize guard and a resize move rewrites its size to
400 by 399. -/
theorem C6_counterexample :
    (resizeSessionAllowed (dragEnd (dragMove (dragStart
        (openApp (initState 1024 768) "Settings" 1 100 100) "Settings-1")
        "Settings-1" 5 60 5 60) "Settings-1") "Settings-1" = true) ∧
    ((findWin (resizeMove (dragEnd (dragMove (dragStart
        (openApp (initState 1024 768) "Settings" 1 100 100) "Settings-1")
        "Settings-1" 5 60 5 60) "Settings-1") "Settings-1" 400 399) "Settings-1").map
      (fun w => (w.style.width, w.style.height)) = some (400, 399)) := by
  refine ⟨?_, ?_⟩ <;> decide

/-- C6 amended: a resize session is rejected exactly while the record is
maximized or still carries a pending snap candidate (which only happens
during an active drag, since the snap commit clears it); every resize
pointer-move writes the clamped size (minimums 300 and 200) directly into
the geometry. -/
theorem C6_resize_guard :
    (∀ (s : OSState) (id : String) (w : WRec), findWin s id = some w →
      (resizeSessionAllowed s id = true ↔ (w.isMaximized = false ∧ w.isSnapping = none))) ∧
    (∀ (s : OSState) (id : String) (w : WRec) (nw nh : Int), findWin s id = some w →
      (findWin (resizeMove s id nw nh) id).map (fun v => (v.style.width, v.style.height))
        = some (max 300 nw, max 200 nh)) := by
  constructor
  · intro s id w h
    unfold resizeSessionAllowed
    rw [h]
    cases hsn : w.isSnapping <;> cases hmx : w.isMaximized <;> simp [hsn, hmx]
  · intro s id w nw nh h
    have h2 : findWin (resizeMove s id nw nh) id = some (resizeRec nw nh w) :=
      findWin_update (resizeRec nw nh) (fun v => rfl) rfl h
    rw [h2, Option.map_some']
    rfl

/-- Witness for the amended C6 on the freshly opened Settings window. -/
theorem C6_resize_guard_witness :
    (resizeSessionAllowed (openApp (initState 1024 768) "Settings" 1 40 40) "Settings-1" = true
      ↔ ((false : Bool) = false ∧ (none : Option SnapEdge) = none)) ∧
    ((findWin (resizeMove (openApp (initState 1024 768) "Settings" 1 40 40) "Settings-1" 444 100)
        "Settings-1").map (fun v => (v.style.width, v.style.height))
      = some (max 300 444, max 200 100)) :=
  ⟨C6_resize_guard.1 (openApp (initState 1024 768) "Settings" 1 40 40) "Settings-1"
    { id := "Settings-1", baseAppId := "Settings", isMinimized := false, isOpen := true, zIndex := 101, isMaximized := false, isSnapping := none, originalPosition := none, style := { top := 40, left := 40, width := 500, height := 480 } }
    (by decide),
   C6_resize_guard.2 (openApp (initState 1024 768) "Settings" 1 40 40) "Settings-1"
    { id := "Settings-1", baseAppId := "Settings", isMinimized := false, isOpen := true, zIndex := 101, isMaximized := false, isSnapping := none, originalPosition := none, style := { top := 40, left := 40, width := 500, height := 480 } }
    444 100 (by decide)⟩

/-- C8 counterexample: the claim says every drag end state has width at least
300.  Sticky Notes windows open at their default width 250 (APP_DEFINITIONS
line 80); a drag does not change the size, so the drag end state keeps width
250, below the documented minimum. -/
theorem C8_counterexample :
    ((findWin (dragEnd (dragMove (dragStart
        (openApp (initState 1024 768) "StickyNotes" 1 50 50) "StickyNotes-1")
        "StickyNotes-1" 500 300 500 300) "StickyNotes-1") "StickyNotes-1").map
      (fun w => (w.style.width, w.style.height))) = some (250, 250) ∧ ¬(300 ≤ (250 : Int)) := by
  refine ⟨?_, ?_⟩ <;> decide

theorem clamp_bounds (lo hi x : Int) (h : lo ≤ hi) :
    lo ≤ max lo (min x hi) ∧ max lo (min x hi) ≤ hi :=
  ⟨le_max_left _ _, max_le h (min_le_right _ _)⟩

theorem setSnapOnActive_style {t : OSState} {id : String} {v : WRec} (e : SnapEdge)
    (h : findWin t id = some v) :
    ∃ v2, findWin (setSnapOnActive t e) id = some v2 ∧ v2.style = v.style := by
  cases ha : t.activeWindowId with
  | none =>
    rw [setSnapOnActive_none ha]
    exact ⟨v, h, rfl⟩
  | some aid =>
    rw [setSnapOnActive_some ha]
    by_cases haid : id = aid
    · subst haid
      exact ⟨_, findWin_update (fun u => { u with isSnapping := some e }) (fun u => rfl) rfl h,
        rfl⟩
    · exact ⟨v, findWin_update_other (fun u => { u with isSnapping := some e }) (fun u => rfl)
        rfl haid h, rfl⟩

/-- C8 amended: every resize pointer-move ends with width at least 300 and
height at least 200 (clamping happens on every move), and every drag
pointer-move keeps the top-left inside the container (below the menu bar,
above the visible dock) whenever the window fits, while leaving width and
height unchanged; but the width/height minimums are NOT enforced for drags,
whose end state keeps the pre-drag size even when that is below the
minimums, as with the 250-pixel Sticky Notes default. -/
theorem C8_geometry_bounds :
    (∀ (s : OSState) (id : String) (w : WRec) (nw nh : Int), findWin s id = some w →
      ∃ v, findWin (resizeMove s id nw nh) id = some v ∧
        300 ≤ v.style.width ∧ 200 ≤ v.style.height) ∧
    (∀ (s : OSState) (id : String) (w : WRec) (nx ny px py : Int), findWin s id = some w →
      ∃ v, findWin (dragMove s id nx ny px py) id = some v ∧
        v.style.width = w.style.width ∧ v.style.height = w.style.height ∧
        (w.style.width ≤ s.containerW →
          0 ≤ v.style.left ∧ v.style.left + v.style.width ≤ s.containerW) ∧
        (s.menuBarH + w.style.height + (if s.isDockVisible then s.dockOffsetH + 10 else 0)
            ≤ s.containerH →
          s.menuBarH ≤ v.style.top ∧
          v.style.top + v.style.height + (if s.isDockVisible then s.dockOffsetH + 10 else 0)
            ≤ s.containerH)) := by
  constructor
  · intro s id w nw nh h
    refine ⟨resizeRec nw nh w, findWin_update (resizeRec nw nh) (fun v => rfl) rfl h, ?_, ?_⟩
    · exact le_max_left _ _
    · exact le_max_left _ _
  · intro s id w nx ny px py h
    have hkey : ∀ (t : OSState) (v : WRec), findWin t id = some v →
        v.style = { w.style with left := max 0 (min nx (s.containerW - w.style.width)), top := max s.menuBarH (min ny (s.containerH - w.style.height - (if s.isDockVisible then s.dockOffsetH + 10 else 0))) } →
        ∃ v, findWin t id = some v ∧
          v.style.width = w.style.width ∧ v.style.height = w.style.height ∧
          (w.style.width ≤ s.containerW →
            0 ≤ v.style.left ∧ v.style.left + v.style.width ≤ s.containerW) ∧
          (s.menuBarH + w.style.height + (if s.isDockVisible then s.dockOffsetH + 10 else 0)
              ≤ s.containerH →
            s.menuBarH ≤ v.style.top ∧
            v.style.top + v.style.height + (if s.isDockVisible then s.dockOffsetH + 10 else 0)
              ≤ s.containerH) := by
      intro t v hf hstyle
      refine ⟨v, hf, by rw [hstyle], by rw [hstyle], ?_, ?_⟩
      · intro hW
        have hc := clamp_bounds 0 (s.containerW - w.style.width) nx (by omega)
        rw [hstyle]
        dsimp only
        refine ⟨hc.1, ?_⟩
        have h2 := hc.2
        omega
      · intro hH
        have hc := clamp_bounds s.menuBarH (s.containerH - w.style.height -
          (if s.isDockVisible then s.dockOffsetH + 10 else 0)) ny (by omega)
        rw [hstyle]
        dsimp only
        refine ⟨hc.1, ?_⟩
        have h2 := hc.2
        omega
    unfold dragMove
    rw [h]
    dsimp only
    have r1 : findWin { s with windows := updateWin s.windows id (fun v => { v with style := { v.style with left := max 0 (min nx (s.containerW - w.style.width)), top := max s.menuBarH (min ny (s.containerH - w.style.height - (if s.isDockVisible then s.dockOffsetH + 10 else 0))) } }) } id = some { w with style := { w.style with left := max 0 (min nx (s.containerW - w.style.width)), top := max s.menuBarH (min ny (s.containerH - w.style.height - (if s.isDockVisible then s.dockOffsetH + 10 else 0))) } } :=
      findWin_update (fun v => { v with style := { v.style with left := max 0 (min nx (s.containerW - w.style.width)), top := max s.menuBarH (min ny (s.containerH - w.style.height - (if s.isDockVisible then s.dockOffsetH + 10 else 0))) } }) (fun v => rfl) rfl h
    split
    · obtain ⟨v2, hv2, hs2⟩ := setSnapOnActive_style SnapEdge.left r1
      exact hkey _ _ hv2 (by rw [hs2])
    · split
      · obtain ⟨v2, hv2, hs2⟩ := setSnapOnActive_style SnapEdge.right r1
        exact hkey _ _ hv2 (by rw [hs2])
      · split
        · obtain ⟨v2, hv2, hs2⟩ := setSnapOnActive_style SnapEdge.top r1
          exact hkey _ _ hv2 (by rw [hs2])
        · exact hkey _ _ (findWin_update (fun v => { v with isSnapping := none })
            (fun v => rfl) rfl r1) rfl

/-- Witness for the amended C8 on the freshly opened Settings window. -/
theorem C8_geometry_bounds_witness :
    (∃ v, findWin (resizeMove (openApp (initState 1024 768) "Settings" 1 40 40)
        "Settings-1" 10 10) "Settings-1" = some v ∧
      300 ≤ v.style.width ∧ 200 ≤ v.style.height) ∧
    (∃ v, findWin (dragMove (openApp (initState 1024 768) "Settings" 1 40 40)
        "Settings-1" 700 600 700 600) "Settings-1" = some v ∧
      v.style.width = (500 : Int) ∧ v.style.height = (480 : Int) ∧
      ((500 : Int) ≤ 1024 → 0 ≤ v.style.left ∧ v.style.left + v.style.width ≤ 1024) ∧
      ((28 : Int) + 480 + 70 ≤ 768 →
        (28 : Int) ≤ v.style.top ∧ v.style.top + v.style.height + 70 ≤ 768)) :=
  ⟨C8_geometry_bounds.1 (openApp (initState 1024 768) "Settings" 1 40 40) "Settings-1"
    { id := "Settings-1", baseAppId := "Settings", isMinimized := false, isOpen := true, zIndex := 101, isMaximized := false, isSnapping := none, originalPosition := none, style := { top := 40, left := 40, width := 500, height := 480 } }
    10 10 (by decide),
   C8_geometry_bounds.2 (openApp (initState 1024 768) "Settings" 1 40 40) "Settings-1"
    { id := "Settings-1", baseAppId := "Settings", isMinimized := false, isOpen := true, zIndex := 101, isMaximized := false, isSnapping := none, originalPosition := none, style := { top := 40, left := 40, width := 500, height := 480 } }
    700 600 700 600 (by decide)⟩

/-- Effect of openApp when a launchable single-instance kind already has an
open window: the call reduces to the dedup branch, which restores the
existing record if minimized and focuses it; no record is created or
removed and no baseAppId changes. -/
theorem openApp_existing_effect {s : OSState} {k : String} {d : AppDef} {ex : WRec}
    (n : Nat) (p q : Int)
    (hnd : (s.windows.map (fun w => w.id)).Nodup)
    (hd : APP_DEFINITIONS.find? (fun x => x.id == k) = some d)
    (hl : d.isLaunchable = true)
    (hmulti : d.allowMultipleInstances = false)
    (hfind : s.windows.find? (fun w => w.baseAppId == k && w.isOpen) = some ex) :
    (openApp s k n p q).windows.map (fun w => w.id) = s.windows.map (fun w => w.id) ∧
    (openApp s k n p q).activeWindowId = some ex.id ∧
    (findWin (openApp s k n p q) ex.id).map (fun w => (w.isOpen, w.isMinimized))
      = some (true, false) ∧
    (∀ kk : String, (openApp s k n p q).windows.countP (fun w => w.baseAppId == kk)
      = s.windows.countP (fun w => w.baseAppId == kk)) := by
  have hl' : ¬(d.isLaunchable = false) := by simp [hl]
  have hexmem : ex ∈ s.windows := List.mem_of_find?_eq_some hfind
  have hexP := List.find?_some hfind
  have hexOpen : ex.isOpen = true := by
    have h2 := hexP
    simp only [Bool.and_eq_true] at h2
    exact h2.2
  have hany : s.windows.any (fun w => w.baseAppId == k && w.isOpen) = true :=
    List.any_eq_true.2 ⟨ex, hexmem, hexP⟩
  rw [openApp_dedup hd hl' ⟨hmulti, hany⟩ hfind]
  have hfex : findWin s ex.id = some ex := by
    unfold findWin
    exact find?_eq_of_mem_nodup hnd hexmem
  by_cases hm : ex.isMinimized = true
  · rw [restoreOpen_minimized hfex hm]
    unfold applyRestoreMin
    have hfmid : findWin { s with windows := updateWin s.windows ex.id restoreMinRec } ex.id
        = some (restoreMinRec ex) :=
      findWin_update restoreMinRec (fun v => rfl) rfl hfex
    refine ⟨?_, focusWindow_active hfmid, ?_, ?_⟩
    · rw [focusWindow_ids]
      exact updateWin_map_field _ _ _ _ (fun v _ => rfl)
    · obtain ⟨w2, hw2, ho2, hm2, _, _, _⟩ := focusWindow_find hfmid
      rw [hw2, Option.map_some', ho2, hm2]
      simp [restoreMinRec, hexOpen]
    · intro kk
      rw [focusWindow_countP _ _ (fun w => w.baseAppId == kk) (fun v nn => rfl)]
      exact countP_updateWin_inv _ _ _ (fun w => w.baseAppId == kk) (fun v => rfl)
  · have hm' : ex.isMinimized = false := by simpa using hm
    rw [restoreOpen_plain hfex hm']
    refine ⟨focusWindow_ids s _, focusWindow_active hfex, ?_, ?_⟩
    · obtain ⟨w2, hw2, ho2, hm2, _, _, _⟩ := focusWindow_find hfex
      rw [hw2, Option.map_some', ho2, hm2, hexOpen, hm']
    · intro kk
      exact focusWindow_countP _ _ (fun w => w.baseAppId == kk) (fun v nn => rfl)

/-- Effect of openApp for a launchable kind with no record of that kind in
the registry and a fresh timestamp id: a single new open record is appended
(created with the next zIndex, then immediately focus-bumped) and it becomes
the active window. -/
theorem openApp_fresh_effect {s : OSState} {k : String} {d : AppDef}
    (n : Nat) (p q : Int)
    (hinv : Inv s)
    (hd : APP_DEFINITIONS.find? (fun x => x.id == k) = some d)
    (hl : d.isLaunchable = true)
    (hnok : ∀ w ∈ s.windows, ¬(w.baseAppId = k))
    (hfresh : ∀ w ∈ s.windows, ¬(w.id = k ++ "-" ++ toString n)) :
    (openApp s k n p q).windows
      = s.windows ++ [{ id := k ++ "-" ++ toString n, baseAppId := k, isMinimized := false, isOpen := true, zIndex := s.nextZIndex + 1, isMaximized := false, isSnapping := none, originalPosition := none, style := { top := q, left := p, width := d.defaultWidth.getD 350, height := d.defaultHeight.getD 450 } }] ∧
    (openApp s k n p q).activeWindowId = some (k ++ "-" ++ toString n) ∧
    (openApp s k n p q).nextZIndex = s.nextZIndex + 2 := by
  have hl' : ¬(d.isLaunchable = false) := by simp [hl]
  have hany : s.windows.any (fun w => w.baseAppId == k && w.isOpen) = false := by
    rw [List.any_eq_false]
    intro x hx
    simp [hnok x hx]
  have hncond : ¬(d.allowMultipleInstances = false ∧
      s.windows.any (fun w => w.baseAppId == k && w.isOpen) = true) := by
    intro hc
    rw [hany] at hc
    cases hc.2
  have hnotrej : ¬(APP_DEFINITIONS.find? (fun x => x.id == k) = none ∧ k ∉ specialCaseIds) := by
    intro hc
    rw [hd] at hc
    cases hc.1
  have hncond2 : ¬(allowsMultiple k = false ∧
      s.windows.any (fun w => w.baseAppId == k && w.isOpen) = true) := by
    intro hc
    rw [hany] at hc
    cases hc.2
  have hanyid : s.windows.any (fun v => v.id == k ++ "-" ++ toString n) = false := by
    rw [List.any_eq_false]
    intro x hx
    simp [hfresh x hx]
  have hwidth : ((d.defaultWidth.orElse (fun _ => ((APP_DEFINITIONS.find? (fun x => x.id == k)).bind (fun dd => dd.defaultWidth)))).getD 350) = d.defaultWidth.getD 350 := by
    rw [hd]
    cases hdw : d.defaultWidth <;> simp [hdw]
  have hheight : ((d.defaultHeight.orElse (fun _ => ((APP_DEFINITIONS.find? (fun x => x.id == k)).bind (fun dd => dd.defaultHeight)))).getD 450) = d.defaultHeight.getD 450 := by
    rw [hd]
    cases hdh : d.defaultHeight <;> simp [hdh]
  have hstep : openApp s k n p q = focusWindow { s with windows := s.windows ++ [{ id := k ++ "-" ++ toString n, baseAppId := k, isMinimized := false, isOpen := true, zIndex := s.nextZIndex, isMaximized := false, isSnapping := none, originalPosition := none, style := { top := q, left := p, width := (d.defaultWidth.orElse (fun _ => ((APP_DEFINITIONS.find? (fun x => x.id == k)).bind (fun dd => dd.defaultWidth)))).getD 350, height := (d.defaultHeight.orElse (fun _ => ((APP_DEFINITIONS.find? (fun x => x.id == k)).bind (fun dd => dd.defaultHeight)))).getD 450 } }], nextZIndex := s.nextZIndex + 1 } (some (k ++ "-" ++ toString n)) := by
    rw [openApp_create hd hl' hncond, createWindow_fresh hnotrej hncond2, mapSet_append hanyid]
    rfl
  have hfindw : findWin { s with windows := s.windows ++ [{ id := k ++ "-" ++ toString n, baseAppId := k, isMinimized := false, isOpen := true, zIndex := s.nextZIndex, isMaximized := false, isSnapping := none, originalPosition := none, style := { top := q, left := p, width := (d.defaultWidth.orElse (fun _ => ((APP_DEFINITIONS.find? (fun x => x.id == k)).bind (fun dd => dd.defaultWidth)))).getD 350, height := (d.defaultHeight.orElse (fun _ => ((APP_DEFINITIONS.find? (fun x => x.id == k)).bind (fun dd => dd.defaultHeight)))).getD 450 } }], nextZIndex := s.nextZIndex + 1 } (k ++ "-" ++ toString n)
      = some { id := k ++ "-" ++ toString n, baseAppId := k, isMinimized := false, isOpen := true, zIndex := s.nextZIndex, isMaximized := false, isSnapping := none, originalPosition := none, style := { top := q, left := p, width := (d.defaultWidth.orElse (fun _ => ((APP_DEFINITIONS.find? (fun x => x.id == k)).bind (fun dd => dd.defaultWidth)))).getD 350, height := (d.defaultHeight.orElse (fun _ => ((APP_DEFINITIONS.find? (fun x => x.id == k)).bind (fun dd => dd.defaultHeight)))).getD 450 } } := by
    unfold findWin
    rw [List.find?_append]
    have h1 : s.windows.find? (fun w => w.id == k ++ "-" ++ toString n) = none := by
      rw [List.find?_eq_none]
      intro x hx
      simp [hfresh x hx]
    rw [h1]
    simp
  rw [hstep]
  rw [focusWindow_bump hfindw (by
    intro hc
    obtain ⟨w0, hw0, hw0id, hx1, hx2⟩ := hinv.2 _ hc.1
    exact hfresh w0 hw0 hw0id)]
  refine ⟨?_, rfl, rfl⟩
  rw [updateWin_append_fresh _ hfresh, if_pos rfl]
  rw [hwidth, hheight]

/-- C2: opening a launchable single-instance kind twice in a row from a
state holding no window of that kind yields exactly one record of that kind;
the second call adds no record, focuses the record created by the first call,
and leaves it open and unminimized.  And in general, openApp on a kind with
an existing open instance adds no record, focuses that instance and restores
it (unminimizes) if it was minimized. -/
theorem C2_single_instance_dedup :
    (∀ (s : OSState) (k : String) (d : AppDef) (n1 n2 : Nat) (a b c e : Int),
      Reachable s →
      APP_DEFINITIONS.find? (fun x => x.id == k) = some d →
      d.isLaunchable = true →
      d.allowMultipleInstances = false →
      (∀ w ∈ s.windows, ¬(w.baseAppId = k)) →
      (∀ w ∈ s.windows, ¬(w.id = k ++ "-" ++ toString n1)) →
      ((openApp (openApp s k n1 a b) k n2 c e).windows.countP
          (fun w => w.baseAppId == k) = 1 ∧
        (openApp (openApp s k n1 a b) k n2 c e).windows.map (fun w => w.id)
          = (openApp s k n1 a b).windows.map (fun w => w.id) ∧
        (openApp (openApp s k n1 a b) k n2 c e).activeWindowId
          = some (k ++ "-" ++ toString n1) ∧
        (findWin (openApp (openApp s k n1 a b) k n2 c e) (k ++ "-" ++ toString n1)).map
          (fun w => (w.isOpen, w.isMinimized)) = some (true, false))) ∧
    (∀ (s : OSState) (k : String) (d : AppDef) (n : Nat) (p q : Int) (ex : WRec),
      Reachable s →
      APP_DEFINITIONS.find? (fun x => x.id == k) = some d →
      d.isLaunchable = true →
      d.allowMultipleInstances = false →
      s.windows.find? (fun w => w.baseAppId == k && w.isOpen) = some ex →
      ((openApp s k n p q).windows.map (fun w => w.id) = s.windows.map (fun w => w.id) ∧
        (openApp s k n p q).activeWindowId = some ex.id ∧
        (findWin (openApp s k n p q) ex.id).map (fun w => (w.isOpen, w.isMinimized))
          = some (true, false))) := by
  constructor
  · intro s k d n1 n2 a b c e hr hd hl hmulti hnok hfresh
    obtain ⟨hwin1, hact1, hnext1⟩ := openApp_fresh_effect n1 a b (inv_reachable hr) hd hl
      hnok hfresh
    have hr1 : Reachable (openApp s k n1 a b) :=
      Reachable.step hr (Step.stepOpenApp s k n1 a b)
    have hnd1 := (inv_reachable hr1).1.nodupId
    have hfind1 : (openApp s k n1 a b).windows.find? (fun w => w.baseAppId == k && w.isOpen)
        = some { id := k ++ "-" ++ toString n1, baseAppId := k, isMinimized := false, isOpen := true, zIndex := s.nextZIndex + 1, isMaximized := false, isSnapping := none, originalPosition := none, style := { top := b, left := a, width := d.defaultWidth.getD 350, height := d.defaultHeight.getD 450 } } := by
      rw [hwin1, List.find?_append]
      have h1 : s.windows.find? (fun w => w.baseAppId == k && w.isOpen) = none := by
        rw [List.find?_eq_none]
        intro x hx
        simp [hnok x hx]
      rw [h1]
      simp
    obtain ⟨hids2, hact2, hrec2, hcnt2⟩ :=
      openApp_existing_effect (s := openApp s k n1 a b) n2 c e hnd1 hd hl hmulti hfind1
    refine ⟨?_, hids2, hact2, hrec2⟩
    rw [hcnt2 k, hwin1, List.countP_append]
    have h0 : s.windows.countP (fun w => w.baseAppId == k) = 0 := by
      rw [List.countP_eq_zero]
      intro x hx
      simp [hnok x hx]
    rw [h0]
    simp
  · intro s k d n p q ex hr hd hl hmulti hfind
    obtain ⟨h1, h2, h3, _⟩ :=
      openApp_existing_effect n p q (inv_reachable hr).1.nodupId hd hl hmulti hfind
    exact ⟨h1, h2, h3⟩

/-- Witness for C2: Settings opened twice from boot (fresh-then-dedup), and
the dedup call on a state whose Settings window was minimized. -/
theorem C2_single_instance_dedup_witness :
    ((openApp (openApp (initState 1024 768) "Settings" 1 40 40) "Settings" 2 50 50).windows.countP
        (fun w => w.baseAppId == "Settings") = 1 ∧
      (openApp (openApp (initState 1024 768) "Settings" 1 40 40) "Settings" 2 50 50).windows.map
          (fun w => w.id)
        = (openApp (initState 1024 768) "Settings" 1 40 40).windows.map (fun w => w.id) ∧
      (openApp (openApp (initState 1024 768) "Settings" 1 40 40) "Settings" 2 50 50).activeWindowId
        = some ("Settings" ++ "-" ++ toString 1) ∧
      (findWin (openApp (openApp (initState 1024 768) "Settings" 1 40 40) "Settings" 2 50 50)
          ("Settings" ++ "-" ++ toString 1)).map (fun w => (w.isOpen, w.isMinimized))
        = some (true, false)) ∧
    ((openApp (minimizeWindow (openApp (initState 1024 768) "Settings" 1 100 100) "Settings-1")
          "Settings" 5 60 60).windows.map (fun w => w.id)
        = (minimizeWindow (openApp (initState 1024 768) "Settings" 1 100 100)
            "Settings-1").windows.map (fun w => w.id) ∧
      (openApp (minimizeWindow (openApp (initState 1024 768) "Settings" 1 100 100) "Settings-1")
          "Settings" 5 60 60).activeWindowId = some "Settings-1" ∧
      (findWin (openApp (minimizeWindow (openApp (initState 1024 768) "Settings" 1 100 100)
          "Settings-1") "Settings" 5 60 60) "Settings-1").map (fun w => (w.isOpen, w.isMinimized))
        = some (true, false)) :=
  ⟨C2_single_instance_dedup.1 (initState 1024 768) "Settings"
      { id := "Settings", isLaunchable := true, allowMultipleInstances := false, defaultWidth := some 500, defaultHeight := some 480 }
      1 2 40 40 50 50 (Reachable.init 1024 768) (by decide) rfl rfl
      (by simp [initState]) (by simp [initState]),
   C2_single_instance_dedup.2
      (minimizeWindow (openApp (initState 1024 768) "Settings" 1 100 100) "Settings-1")
      "Settings"
      { id := "Settings", isLaunchable := true, allowMultipleInstances := false, defaultWidth := some 500, defaultHeight := some 480 }
      5 60 60
      { id := "Settings-1", baseAppId := "Settings", isMinimized := true, isOpen := true, zIndex := 101, isMaximized := false, isSnapping := none, originalPosition := some { top := 100, left := 100, width := 500, height := 480 }, style := { top := 100, left := 100, width := 500, height := 480 } }
      (Reachable.step
        (Reachable.step (Reachable.init 1024 768)
          (Step.stepOpenApp (initState 1024 768) "Settings" 1 100 100))
        (Step.stepMinimize _ "Settings-1"))
      (by decide) rfl rfl (by decide)⟩

end Wiqnnc
